import Mathlib

/-!
# Settler Go SDK: request dispatch, error classification, facades

A shallow embedding of `packages/sdk-go/settler/client.go` and
`packages/sdk-go/settler/errors.go`.

* Go values of type `map[string]interface{}` are association lists; a nil map
  is `none`, so a possibly-nil map is `Option Obj`.
* A Go function returning `(value, error)` returns an `Outcome`: either the
  call panicked, or it returned the pair (a nil error is `none`).
* The Go standard library (net/url parsing and rendering, encoding/json,
  net/http, crypto/sha256) is not part of the repository; the functions of it
  that the client calls are the fields of `Lib`, and every definition below
  takes the library as its first argument.  `url.Values.Set`,
  `url.Values.Encode` and `url.QueryEscape` are modelled concretely.
-/

set_option autoImplicit false

namespace Settler

/-! ## JSON values and maps -/

/-- What `encoding/json` decodes into an `interface{}`. A number is a float64
in Go; the client never inspects one, so it is kept as its literal. -/
inductive JSON where
  | null
  | bool (b : Bool)
  | number (lit : String)
  | string (s : String)
  | array (xs : List JSON)
  | object (fields : List (String × JSON))

/-- A non-nil `map[string]interface{}`. -/
abbrev Obj := List (String × JSON)

/-- The map index expression `data[key]`; indexing a nil map finds nothing. -/
def index (data : Option Obj) (key : String) : Option JSON :=
  match data with
  | none => none
  | some m => m.lookup key

/-- The type assertion `v.(string)` on the result of an index expression. -/
def asString : Option JSON → Option String
  | some (.string s) => some s
  | _ => none

/-- The type assertion `v.(map[string]interface{})`. -/
def asObject : Option JSON → Option Obj
  | some (.object m) => some m
  | _ => none

/-- The type assertion `v.([]interface{})`. -/
def asArray : Option JSON → Option (List JSON)
  | some (.array xs) => some xs
  | _ => none

/-! ## errors.go -/

/-- The error values the package produces: the seven struct types of
errors.go, and the values built with `fmt.Errorf` in client.go (kept as their
text). -/
inductive Error where
  | SettlerError (Message : String) (StatusCode : Int)
  | NetworkError (Message : String)
  | AuthenticationError (Message : String)
  | ValidationError (Message : String)
  | NotFoundError (Message : String)
  | RateLimitError (Message : String)
  | ServerError (Message : String) (StatusCode : Int)
  | Errorf (text : String)
  deriving DecidableEq

/-- The `Error()` method of each type (a definition named `Error.Error`
would shadow the type inside its own namespace). -/
def Error.errorString : Error → String
  | .SettlerError m _ => m
  | .NetworkError m => "Network error: " ++ m
  | .AuthenticationError m => "Authentication error: " ++ m
  | .ValidationError m => "Validation error: " ++ m
  | .NotFoundError m => "Not found: " ++ m
  | .RateLimitError m => "Rate limit exceeded: " ++ m
  | .ServerError m code => "Server error (" ++ toString code ++ "): " ++ m
  | .Errorf t => t

/-- The names the specification gives to the error types. -/
inductive Kind where
  | Network | Authentication | NotFound | Validation | RateLimit | Server | Generic | Wrapped
  deriving DecidableEq

/-- Which Go type an error value has. -/
def Error.kind : Error → Kind
  | .SettlerError _ _ => .Generic
  | .NetworkError _ => .Network
  | .AuthenticationError _ => .Authentication
  | .ValidationError _ => .Validation
  | .NotFoundError _ => .NotFound
  | .RateLimitError _ => .RateLimit
  | .ServerError _ _ => .Server
  | .Errorf _ => .Wrapped

/-- The `Message` field of an error value (for `fmt.Errorf` values, the text). -/
def Error.Message : Error → String
  | .SettlerError m _ => m
  | .NetworkError m => m
  | .AuthenticationError m => m
  | .ValidationError m => m
  | .NotFoundError m => m
  | .RateLimitError m => m
  | .ServerError m _ => m
  | .Errorf t => t

/-- The `StatusCode` field, for the two types that have one. -/
def Error.StatusCode : Error → Option Int
  | .SettlerError _ code => some code
  | .ServerError _ code => some code
  | _ => none

/-! ## client.go: handleError (lines 133-155) -/

/-- Method `Client.handleError`. The receiver is unused by the body and left out. -/
def handleError (statusCode : Int) (data : Option Obj) : Error :=
  let message : String :=
    match asString (index data "message") with
    | some msg => msg
    | none =>
      match asString (index data "error") with
      | some err => err
      | none => "Unknown error"
  if statusCode = 401 ∨ statusCode = 403 then .AuthenticationError message
  else if statusCode = 404 then .NotFoundError message
  else if statusCode = 422 then .ValidationError message
  else if statusCode = 429 then .RateLimitError message
  else if statusCode ≥ 500 then .ServerError message statusCode
  else .SettlerError message statusCode

/-! ## client.go: Client and NewClient (lines 15-58) -/

/-- The `Client` struct. `timeout` is `httpClient.Timeout`, a `time.Duration`
(nanoseconds); `dedupeCache` maps keys to instants and is never read or
written after construction. -/
structure Client where
  apiKey : String
  baseURL : String
  timeout : Int
  dedupeCache : List (String × Int)

/-- The result of a Go function returning `(value, error)`, or a panic. -/
inductive Outcome (α : Type) where
  | panicked
  | returned (value : α) (err : Option Error)

/-- Type `ClientOption` is `func(*Client)`. Such a value is nil (`none`) or a
function; a function applied to the client under construction either updates
it or panics (`none`). -/
abbrev ClientOption := Option (Client → Option Client)

/-- Function `WithBaseURL`. -/
def WithBaseURL (baseURL : String) : ClientOption :=
  some (fun c => some { c with baseURL := baseURL })

/-- Function `WithTimeout`. -/
def WithTimeout (timeout : Int) : ClientOption :=
  some (fun c => some { c with timeout := timeout })

/-- What `NewClient` does besides computing its result: it allocates the
`http.Client` (line 32) and runs the options (line 37). -/
inductive Effect where
  | transportCreated
  | optionApplied (position : Nat)
  deriving DecidableEq

/-- A run of `NewClient`: its outcome and the effects in program order. -/
structure NewClientRun where
  result : Outcome (Option Client)
  effects : List Effect

/-- The loop of lines 36-38, from the option at index `position` on. The call
`option(client)` is not guarded: calling a nil option panics before anything
runs, and a panic inside an option ends the loop. `none` is the panic. -/
def applyOptions : List ClientOption → Nat → Client → Option Client × List Effect
  | [], _, c => (some c, [])
  | none :: _, _, _ => (none, [])
  | some option :: rest, position, c =>
    match option c with
    | none => (none, [Effect.optionApplied position])
    | some updated =>
      let r := applyOptions rest (position + 1) updated
      (r.1, Effect.optionApplied position :: r.2)

/-- Function `NewClient`. Thirty seconds are 30000000000 nanoseconds. -/
def NewClient (apiKey : String) (options : List ClientOption) : NewClientRun :=
  if apiKey = "" then
    { result := .returned none (some (.Errorf "API key is required")), effects := [] }
  else
    let client : Client :=
      { apiKey := apiKey, baseURL := "https://api.settler.io",
        timeout := 30 * 1000000000, dedupeCache := [] }
    let r := applyOptions options 0 client
    { result :=
        match r.1 with
        | none => .panicked
        | some configured => .returned (some configured) none,
      effects := Effect.transportCreated :: r.2 }

/-! ## net/url: Values, QueryEscape (standard library, modelled concretely) -/

/-- Type `url.Values`, a `map[string][]string`, as an association list with at
most one entry per key. -/
abbrev Values := List (String × List String)

/-- Method `Values.Set`: `v[key] = []string{value}`. -/
def Values.Set (v : Values) (key value : String) : Values :=
  (key, [value]) :: v.filter (fun p => p.1 != key)

/-- Unreserved in `shouldEscape` for the mode `encodeQueryComponent`:
ASCII letters and digits and the four marks. -/
def unreserved (c : Char) : Bool :=
  c.isAlphanum || c == '-' || c == '_' || c == '.' || c == '~'

/-- The table `upperhex`. -/
def upperhex (n : Nat) : Char :=
  "0123456789ABCDEF".data.getD n '0'

/-- One escaped byte: `%` and two hexadecimal digits. -/
def escapeByte (b : UInt8) : List Char :=
  ['%', upperhex (b.toNat / 16), upperhex (b.toNat % 16)]

/-- What `escape` writes for the bytes of one character. -/
def escapeChar (c : Char) : List Char :=
  if unreserved c then [c]
  else if c = ' ' then ['+']
  else (String.utf8EncodeChar c).flatMap escapeByte

/-- Function `url.QueryEscape`. -/
def QueryEscape (s : String) : String :=
  ⟨s.data.flatMap escapeChar⟩

/-- Insertion of an entry into a list sorted by key. -/
def insertByKey (e : String × List String) : Values → Values
  | [] => [e]
  | f :: rest => if e.1 < f.1 then e :: f :: rest else f :: insertByKey e rest

/-- The entries in increasing key order (`slices.Sort(keys)`). -/
def sortByKey : Values → Values
  | [] => []
  | e :: rest => insertByKey e (sortByKey rest)

/-- Method `Values.Encode`: `key=value` for every value of every key in sorted key
order, joined by `&`. -/
def Values.Encode (v : Values) : String :=
  "&".intercalate
    ((sortByKey v).flatMap
      (fun e => e.2.map (fun value => QueryEscape e.1 ++ "=" ++ QueryEscape value)))

/-! ## The standard library functions the client calls -/

/-- An `*http.Request` as built by lines 101-108. -/
structure Request where
  method : String
  url : String
  body : Option String
  header : List (String × String)

/-- An `*http.Response`: the status code and what `io.ReadAll(resp.Body)`
gives (the bytes read, or the read error). -/
structure Response where
  StatusCode : Int
  Body : Except String String

/-- The standard library, as far as client.go uses it. A failing call gives
the text of its error.
* `urlParse`: `url.Parse`; on an error the returned `*url.URL` is nil (`none`);
* `urlQuery`: `(*URL).Query()`; `urlSetRawQuery`: the assignment to `u.RawQuery`;
  `urlString`: `(*URL).String()`;
* `jsonMarshal`, `jsonUnmarshal`: `json.Marshal` of a request body and
  `json.Unmarshal` into a `map[string]interface{}` (the text `null` leaves
  the map nil);
* `newRequestError`: the error of `http.NewRequest`, if any;
* `roundTrip`: `httpClient.Do` under the client timeout;
* `sha256Hex`: `sha256.Sum256` followed by `hex.EncodeToString`.
`Body` is the type of request bodies (`CreateJobRequest`,
`CreateWebhookRequest`), which the client only hands to `json.Marshal`. -/
structure Lib where
  URL : Type
  Body : Type
  urlParse : String → Option URL
  urlQuery : URL → Values
  urlSetRawQuery : URL → String → URL
  urlString : URL → String
  jsonMarshal : Body → Except String String
  jsonUnmarshal : String → Except String (Option Obj)
  newRequestError : String → String → Option String → Option String
  roundTrip : Int → Request → Except String Response
  sha256Hex : String → String

/-! ## client.go: request (lines 80-131) -/

/-- Lines 81-90 of `request`: the URI. `none` is the nil dereference of
line 84: `url.Parse` failed, its error was dropped, and `u.Query()` reads
`u.RawQuery` through the nil pointer. `params` lists the entries of the Go
map in the order the `range` loop visits them. -/
def requestURI (L : Lib) (c : Client) (path : String) (params : List (String × String)) :
    Option String :=
  let uri := c.baseURL ++ path
  if params.length > 0 then
    match L.urlParse uri with
    | none => none
    | some u =>
      let q := params.foldl (fun q kv => Values.Set q kv.1 kv.2) (L.urlQuery u)
      some (L.urlString (L.urlSetRawQuery u (Values.Encode q)))
  else some uri

/-- Where lines 81-108 of `request` leave it: panicked, returned early with an
error, or ready to send a request. -/
inductive Prepared where
  | panicked
  | failed (err : Error)
  | ready (req : Request)

/-- Lines 81-108 of `request`. -/
def prepareRequest (L : Lib) (c : Client) (method path : String) (body : Option L.Body)
    (params : List (String × String)) : Prepared :=
  match requestURI L c path params with
  | none => .panicked
  | some uri =>
    let marshalled : Except String (Option String) :=
      match body with
      | none => .ok none
      | some b =>
        match L.jsonMarshal b with
        | .error e => .error e
        | .ok jsonData => .ok (some jsonData)
    match marshalled with
    | .error e => .failed (.Errorf ("failed to marshal request body: " ++ e))
    | .ok reqBody =>
      match L.newRequestError method uri reqBody with
      | some e => .failed (.Errorf ("failed to create request: " ++ e))
      | none =>
        .ready
          { method := method, url := uri, body := reqBody,
            header := [("Authorization", "Bearer " ++ c.apiKey),
                       ("Content-Type", "application/json"),
                       ("User-Agent", "settler-go-sdk/1.0.0")] }

/-- Lines 116-130 of `request`: reading and decoding a response. -/
def decodeResponse (L : Lib) (resp : Response) : Outcome (Option Obj) :=
  match resp.Body with
  | .error e => .returned none (some (.Errorf ("failed to read response: " ++ e)))
  | .ok respBody =>
    match L.jsonUnmarshal respBody with
    | .error e => .returned none (some (.Errorf ("failed to parse response: " ++ e)))
    | .ok result =>
      if resp.StatusCode ≥ 400 then .returned none (some (handleError resp.StatusCode result))
      else .returned result none

/-- Method `Client.request`. -/
def request (L : Lib) (c : Client) (method path : String) (body : Option L.Body)
    (params : List (String × String)) : Outcome (Option Obj) :=
  match prepareRequest L c method path body params with
  | .panicked => .panicked
  | .failed err => .returned none (some err)
  | .ready req =>
    match L.roundTrip c.timeout req with
    | .error e => .returned none (some (.NetworkError e))
    | .ok resp => decodeResponse L resp

/-! ## client.go: generateDedupKey (lines 157-166) -/

/-- Lines 158-162: the body as text; a nil body and a body that
`json.Marshal` rejects (its error is dropped) both give the empty string. -/
def bodyString (L : Lib) (body : Option L.Body) : String :=
  match body with
  | none => ""
  | some b =>
    match L.jsonMarshal b with
    | .error _ => ""
    | .ok jsonData => jsonData

/-- Line 163: `fmt.Sprintf("%s:%s:%s", method, uri, bodyStr)`. -/
def keyData (method uri bodyStr : String) : String :=
  method ++ ":" ++ uri ++ ":" ++ bodyStr

/-- Method `Client.generateDedupKey`. -/
def generateDedupKey (L : Lib) (method uri : String) (body : Option L.Body) : String :=
  L.sha256Hex (keyData method uri (bodyString L body))

/-! ## The shape of a JSON text

`json.Marshal` returns a JSON text. Every JSON text passes the scan below,
which tracks only whether the reader is inside a string literal and how many
brackets are open: string literals are closed, a backslash occurs only inside
a string literal, brackets are balanced, and a colon outside a string literal
occurs only inside an object. -/

/-- Where the scan is: between tokens, inside a string literal, or right after
a backslash inside a string literal. -/
inductive ScanMode where
  | outside
  | inString
  | escaped
  deriving DecidableEq

/-- One character of the scan, from a mode and a number of open brackets;
`none` when no JSON text continues this way. -/
def scanStep (mode : ScanMode) (depth : Nat) (ch : Char) : Option (ScanMode × Nat) :=
  match mode with
  | .outside =>
    if ch = '"' then some (.inString, depth)
    else if ch = '\\' then none
    else if ch = '{' ∨ ch = '[' then some (.outside, depth + 1)
    else if ch = '}' ∨ ch = ']' then (if depth = 0 then none else some (.outside, depth - 1))
    else if ch = ':' then (if depth = 0 then none else some (.outside, depth))
    else some (.outside, depth)
  | .inString =>
    if ch = '"' then some (.outside, depth)
    else if ch = '\\' then some (.escaped, depth)
    else some (.inString, depth)
  | .escaped => some (.inString, depth)

/-- The scan of a text from a given state. -/
def scan : ScanMode × Nat → List Char → Option (ScanMode × Nat)
  | st, [] => some st
  | st, ch :: rest =>
    match scanStep st.1 st.2 ch with
    | none => none
    | some next => scan next rest

/-- A text that the scan reads from start to end, ending between tokens with
no bracket open. The empty text, which `generateDedupKey` uses for an absent
body, is one. -/
def jsonShaped (s : String) : Prop :=
  scan (.outside, 0) s.data = some (.outside, 0)

instance (s : String) : Decidable (jsonShaped s) := by
  unfold jsonShaped
  exact inferInstance

/-! ## client.go: the resource facades (lines 60-78, 168-361) -/

/-- Struct `JobsClient`. -/
structure JobsClient where
  client : Client

/-- Struct `ReportsClient`. -/
structure ReportsClient where
  client : Client

/-- Struct `WebhooksClient`. -/
structure WebhooksClient where
  client : Client

/-- Struct `AdaptersClient`. -/
structure AdaptersClient where
  client : Client

/-- Method `Client.Jobs`. -/
def Client.Jobs (c : Client) : JobsClient := { client := c }

/-- Method `Client.Reports`. -/
def Client.Reports (c : Client) : ReportsClient := { client := c }

/-- Method `Client.Webhooks`. -/
def Client.Webhooks (c : Client) : WebhooksClient := { client := c }

/-- Method `Client.Adapters`. -/
def Client.Adapters (c : Client) : AdaptersClient := { client := c }

/-- Go `fmt.Sprintf("%d", n)` for a Go `int`: the decimal digits, after a minus
sign for a negative number. -/
def formatInt : Int → String
  | .ofNat m => ⟨Nat.toDigits 10 m⟩
  | .negSucc m => ⟨'-' :: Nat.toDigits 10 (m + 1)⟩

/-- Method `JobsClient.Create`. -/
def JobsClient.Create (L : Lib) (jc : JobsClient) (req : L.Body) : Outcome (Option Obj) :=
  match request L jc.client "POST" "/api/v1/jobs" (some req) [] with
  | .panicked => .panicked
  | .returned _ (some err) => .returned none (some err)
  | .returned resp none =>
    match asObject (index resp "data") with
    | some data => .returned (some data) none
    | none => .returned resp none

/-- Method `JobsClient.Get`. -/
def JobsClient.Get (L : Lib) (jc : JobsClient) (jobID : String) : Outcome (Option Obj) :=
  match request L jc.client "GET" ("/api/v1/jobs/" ++ jobID) none [] with
  | .panicked => .panicked
  | .returned _ (some err) => .returned none (some err)
  | .returned resp none =>
    match asObject (index resp "data") with
    | some data => .returned (some data) none
    | none => .returned resp none

/-- Method `JobsClient.List`. -/
def JobsClient.List (L : Lib) (jc : JobsClient) (page limit : Int) : Outcome (Option Obj) :=
  let params := [("page", formatInt page), ("limit", formatInt limit)]
  request L jc.client "GET" "/api/v1/jobs" none params

/-- Method `JobsClient.Run`. -/
def JobsClient.Run (L : Lib) (jc : JobsClient) (jobID : String) : Outcome (Option Obj) :=
  match request L jc.client "POST" ("/api/v1/jobs/" ++ jobID ++ "/run") none [] with
  | .panicked => .panicked
  | .returned _ (some err) => .returned none (some err)
  | .returned resp none =>
    match asObject (index resp "data") with
    | some data => .returned (some data) none
    | none => .returned resp none

/-- Method `JobsClient.Delete`; it returns an error only. -/
def JobsClient.Delete (L : Lib) (jc : JobsClient) (jobID : String) : Outcome Unit :=
  match request L jc.client "DELETE" ("/api/v1/jobs/" ++ jobID) none [] with
  | .panicked => .panicked
  | .returned _ err => .returned () err

/-- Method `ReportsClient.Get`. -/
def ReportsClient.Get (L : Lib) (rc : ReportsClient) (jobID executionID : String) :
    Outcome (Option Obj) :=
  let path := "/api/v1/reports/" ++ jobID
  let path := if executionID ≠ "" then path ++ "/" ++ executionID else path
  match request L rc.client "GET" path none [] with
  | .panicked => .panicked
  | .returned _ (some err) => .returned none (some err)
  | .returned resp none =>
    match asObject (index resp "data") with
    | some data => .returned (some data) none
    | none => .returned resp none

/-- Method `ReportsClient.GetUnmatched`; a nil slice is `none`. -/
def ReportsClient.GetUnmatched (L : Lib) (rc : ReportsClient) (jobID executionID : String) :
    Outcome (Option (List JSON)) :=
  let path := "/api/v1/reports/" ++ jobID ++ "/unmatched"
  let params := if executionID ≠ "" then [("execution_id", executionID)] else []
  match request L rc.client "GET" path none params with
  | .panicked => .panicked
  | .returned _ (some err) => .returned none (some err)
  | .returned resp none =>
    match asArray (index resp "data") with
    | some data => .returned (some data) none
    | none => .returned (some []) none

/-- Method `WebhooksClient.Create`. -/
def WebhooksClient.Create (L : Lib) (wc : WebhooksClient) (req : L.Body) :
    Outcome (Option Obj) :=
  match request L wc.client "POST" "/api/v1/webhooks" (some req) [] with
  | .panicked => .panicked
  | .returned _ (some err) => .returned none (some err)
  | .returned resp none =>
    match asObject (index resp "data") with
    | some data => .returned (some data) none
    | none => .returned resp none

/-- Method `WebhooksClient.List`. -/
def WebhooksClient.List (L : Lib) (wc : WebhooksClient) : Outcome (Option (List JSON)) :=
  match request L wc.client "GET" "/api/v1/webhooks" none [] with
  | .panicked => .panicked
  | .returned _ (some err) => .returned none (some err)
  | .returned resp none =>
    match asArray (index resp "data") with
    | some data => .returned (some data) none
    | none => .returned (some []) none

/-- Method `WebhooksClient.Delete`. -/
def WebhooksClient.Delete (L : Lib) (wc : WebhooksClient) (webhookID : String) : Outcome Unit :=
  match request L wc.client "DELETE" ("/api/v1/webhooks/" ++ webhookID) none [] with
  | .panicked => .panicked
  | .returned _ err => .returned () err

/-- Method `AdaptersClient.List`. -/
def AdaptersClient.List (L : Lib) (ac : AdaptersClient) : Outcome (Option (List JSON)) :=
  match request L ac.client "GET" "/api/v1/adapters" none [] with
  | .panicked => .panicked
  | .returned _ (some err) => .returned none (some err)
  | .returned resp none =>
    match asArray (index resp "data") with
    | some data => .returned (some data) none
    | none => .returned (some []) none

/-- Method `AdaptersClient.Get`. -/
def AdaptersClient.Get (L : Lib) (ac : AdaptersClient) (adapterName : String) :
    Outcome (Option Obj) :=
  match request L ac.client "GET" ("/api/v1/adapters/" ++ adapterName) none [] with
  | .panicked => .panicked
  | .returned _ (some err) => .returned none (some err)
  | .returned resp none =>
    match asObject (index resp "data") with
    | some data => .returned (some data) none
    | none => .returned resp none

/-! ## A concrete library for evaluating the client at sample inputs -/

/-- Line 1 of `url.parse`: `stringContainsCTLByte`, a byte below 0x20 or the
byte 0x7f. -/
def containsCTLByte (s : String) : Bool :=
  s.data.any (fun ch => decide (ch.toNat < 32) || decide (ch.toNat = 127))

/-- A library instance with a canned server: every request is answered with
`status` and the body `text`, and `text` decodes to `parsed`. Its URLs are
pairs of the text before the query and the raw query; it parses only strings
free of `?`, `#` and `%` (so a parsed URL has an empty query and renders as
itself), and, as `url.Parse` does, rejects control bytes. Request bodies are
JSON texts already. -/
def cannedLib (status : Int) (text : String) (parsed : Option Obj) : Lib where
  URL := String × String
  Body := String
  urlParse := fun s =>
    if containsCTLByte s || s.data.any (fun ch => ch == '?' || ch == '#' || ch == '%') then none
    else some (s, "")
  urlQuery := fun _ => []
  urlSetRawQuery := fun u q => (u.1, q)
  urlString := fun u => if u.2 = "" then u.1 else u.1 ++ "?" ++ u.2
  jsonMarshal := fun b => .ok b
  jsonUnmarshal := fun s => if s = text then .ok parsed else .error "invalid character"
  newRequestError := fun _ _ _ => none
  roundTrip := fun _ _ => .ok { StatusCode := status, Body := .ok text }
  sha256Hex := fun s => s

/-- Go `strings.Cut` at the first occurrence of a character: the text before
it, and the text after it when it occurs. -/
def cutAt (sep : Char) : List Char → List Char × Option (List Char)
  | [] => ([], none)
  | ch :: rest =>
    if ch = sep then ([], some rest)
    else
      let r := cutAt sep rest
      (ch :: r.1, r.2)

/-- The pieces of a text between occurrences of a separator. -/
def splitOnChar (sep : Char) : List Char → List (List Char)
  | [] => [[]]
  | ch :: rest =>
    match splitOnChar sep rest with
    | [] => [[]]
    | piece :: pieces => if ch = sep then [] :: piece :: pieces else (ch :: piece) :: pieces

/-- The statement `m[key] = append(m[key], value)` of `url.ParseQuery`. -/
def addValue (v : Values) (key value : String) : Values :=
  if v.any (fun e => e.1 == key) then
    v.map (fun e => if e.1 == key then (e.1, e.2 ++ [value]) else e)
  else v ++ [(key, [value])]

/-- What `url.ParseQuery` makes of a raw query without escapes: the pieces
between `&`, each cut at its first `=`, empty pieces skipped. -/
def parsePlainQuery (raw : String) : Values :=
  (splitOnChar '&' raw.data).foldl
    (fun v piece =>
      if piece = [] then v
      else
        let r := cutAt '=' piece
        addValue v ⟨r.1⟩ ⟨r.2.getD []⟩)
    []

/-- A library instance like `cannedLib` whose URLs may carry a query: a URL is
the text before the first `?` and the raw query after it, as `url.Parse`
splits it, and `Query()` reads the raw query with `parsePlainQuery`. It parses
only strings free of control bytes, `#`, `%`, `+` and `;`, for which no
unescaping is involved. -/
def queryLib (status : Int) (text : String) (parsed : Option Obj) : Lib where
  URL := String × String
  Body := String
  urlParse := fun s =>
    if containsCTLByte s
        || s.data.any (fun ch => ch == '#' || ch == '%' || ch == '+' || ch == ';') then none
    else
      let r := cutAt '?' s.data
      some (⟨r.1⟩, ⟨r.2.getD []⟩)
  urlQuery := fun u => parsePlainQuery u.2
  urlSetRawQuery := fun u q => (u.1, q)
  urlString := fun u => if u.2 = "" then u.1 else u.1 ++ "?" ++ u.2
  jsonMarshal := fun b => .ok b
  jsonUnmarshal := fun s => if s = text then .ok parsed else .error "invalid character"
  newRequestError := fun _ _ _ => none
  roundTrip := fun _ _ => .ok { StatusCode := status, Body := .ok text }
  sha256Hex := fun s => s

/-- The client `NewClient("sk_test", WithBaseURL(...))` builds for a base URL
that carries a query of its own. -/
def tenantClient : Client :=
  { apiKey := "sk_test", baseURL := "https://api.settler.io/v2?tenant=acme",
    timeout := 30 * 1000000000, dedupeCache := [] }

/-- The client `NewClient("sk_test")` builds. -/
def sampleClient : Client :=
  { apiKey := "sk_test", baseURL := "https://api.settler.io",
    timeout := 30 * 1000000000, dedupeCache := [] }

/-! ## Lemmas on handleError -/

theorem asString_eq_some {v : Option JSON} {s : String} :
    asString v = some s ↔ v = some (.string s) := by
  constructor
  · intro h
    match v, h with
    | some (.string t), h => simp [asString] at h; simp [h]
  · intro h
    simp [h, asString]

theorem asString_eq_none {v : Option JSON} :
    asString v = none ↔ ∀ s, v ≠ some (.string s) := by
  constructor
  · intro h s hv
    simp [hv, asString] at h
  · intro h
    match v, h with
    | none, _ => rfl
    | some .null, _ => rfl
    | some (.bool _), _ => rfl
    | some (.number _), _ => rfl
    | some (.string t), h => exact absurd rfl (h t)
    | some (.array _), _ => rfl
    | some (.object _), _ => rfl

/-- The message `handleError` puts into whichever error it builds. -/
theorem handleError_Message_eq (statusCode : Int) (data : Option Obj) :
    (handleError statusCode data).Message =
      match asString (index data "message") with
      | some msg => msg
      | none =>
        match asString (index data "error") with
        | some err => err
        | none => "Unknown error" := by
  unfold handleError
  simp only []
  split_ifs <;> rfl

/-- The default branch of the switch: a status that is none of 401, 403, 404,
422, 429 and is below 500 gives a SettlerError with that status code. -/
theorem handleError_default (statusCode : Int) (data : Option Obj)
    (h401 : statusCode ≠ 401) (h403 : statusCode ≠ 403) (h404 : statusCode ≠ 404)
    (h422 : statusCode ≠ 422) (h429 : statusCode ≠ 429) (h500 : statusCode < 500) :
    ∃ m, handleError statusCode data = .SettlerError m statusCode := by
  have h1 : ¬ (statusCode = 401 ∨ statusCode = 403) := by omega
  have h5 : ¬ statusCode ≥ 500 := by omega
  exact ⟨_, by
    unfold handleError; simp only []
    rw [if_neg h1, if_neg h404, if_neg h422, if_neg h429, if_neg h5]⟩

/-! ## C1: status code to error kind -/

/-- C1: for every status code and parsed body, `handleError` returns the error
of the table: 401 or 403 gives an AuthenticationError, 404 a NotFoundError, 422
a ValidationError, 429 a RateLimitError, a status of 500 or more a ServerError
with that status code, and every other status a SettlerError with that status
code; the kind is the same for any two bodies. -/
theorem handleError_kind_table (statusCode : Int) (data : Option Obj) :
    ((statusCode = 401 ∨ statusCode = 403) →
        ∃ m, handleError statusCode data = .AuthenticationError m) ∧
    (statusCode = 404 → ∃ m, handleError statusCode data = .NotFoundError m) ∧
    (statusCode = 422 → ∃ m, handleError statusCode data = .ValidationError m) ∧
    (statusCode = 429 → ∃ m, handleError statusCode data = .RateLimitError m) ∧
    (statusCode ≥ 500 → ∃ m, handleError statusCode data = .ServerError m statusCode) ∧
    (statusCode ≠ 401 → statusCode ≠ 403 → statusCode ≠ 404 → statusCode ≠ 422 →
        statusCode ≠ 429 → statusCode < 500 →
        ∃ m, handleError statusCode data = .SettlerError m statusCode) ∧
    (∀ other : Option Obj,
        (handleError statusCode other).kind = (handleError statusCode data).kind) := by
  refine ⟨?_, ?_, ?_, ?_, ?_, ?_, ?_⟩
  · intro h
    exact ⟨_, by unfold handleError; simp only []; rw [if_pos h]⟩
  · intro h
    have h1 : ¬ (statusCode = 401 ∨ statusCode = 403) := by omega
    exact ⟨_, by unfold handleError; simp only []; rw [if_neg h1, if_pos h]⟩
  · intro h
    have h1 : ¬ (statusCode = 401 ∨ statusCode = 403) := by omega
    have h2 : statusCode ≠ 404 := by omega
    exact ⟨_, by unfold handleError; simp only []; rw [if_neg h1, if_neg h2, if_pos h]⟩
  · intro h
    have h1 : ¬ (statusCode = 401 ∨ statusCode = 403) := by omega
    have h2 : statusCode ≠ 404 := by omega
    have h3 : statusCode ≠ 422 := by omega
    exact ⟨_, by
      unfold handleError; simp only []; rw [if_neg h1, if_neg h2, if_neg h3, if_pos h]⟩
  · intro h
    have h1 : ¬ (statusCode = 401 ∨ statusCode = 403) := by omega
    have h2 : statusCode ≠ 404 := by omega
    have h3 : statusCode ≠ 422 := by omega
    have h4 : statusCode ≠ 429 := by omega
    exact ⟨_, by unfold handleError; simp only []; rw [if_neg h1, if_neg h2, if_neg h3, if_neg h4, if_pos h]⟩
  · intro a b c d e f
    have h1 : ¬ (statusCode = 401 ∨ statusCode = 403) := by omega
    have h5 : ¬ statusCode ≥ 500 := by omega
    exact ⟨_, by unfold handleError; simp only []; rw [if_neg h1, if_neg c, if_neg d, if_neg e, if_neg h5]⟩
  · intro other
    unfold handleError
    simp only []
    split_ifs <;> rfl

/-! ## C2: message extraction -/

/-- C2: the message of the error `handleError` returns is the body's `message`
field when that is a string, else the body's `error` field when that is a
string, else "Unknown error"; so `message` wins over `error`, and a body with
neither, with non-string values, or a nil body gives the fallback. -/
theorem handleError_message_precedence (statusCode : Int) (data : Option Obj) :
    (∀ m, index data "message" = some (.string m) →
        (handleError statusCode data).Message = m) ∧
    (∀ e, (∀ m, index data "message" ≠ some (.string m)) →
        index data "error" = some (.string e) →
        (handleError statusCode data).Message = e) ∧
    ((∀ m, index data "message" ≠ some (.string m)) →
        (∀ e, index data "error" ≠ some (.string e)) →
        (handleError statusCode data).Message = "Unknown error") ∧
    (handleError statusCode (some [("message", .string "a"), ("error", .string "b")])).Message
        = "a" ∧
    (handleError statusCode (some [("error", .string "b")])).Message = "b" ∧
    (handleError statusCode (some [])).Message = "Unknown error" ∧
    (handleError statusCode (some [("message", .number "1"), ("error", .null)])).Message
        = "Unknown error" ∧
    (handleError statusCode none).Message = "Unknown error" := by
  refine ⟨?_, ?_, ?_, ?_, ?_, ?_, ?_, ?_⟩
  · intro m hm
    rw [handleError_Message_eq, asString_eq_some.mpr hm]
  · intro e hm he
    rw [handleError_Message_eq, asString_eq_none.mpr hm, asString_eq_some.mpr he]
  · intro hm he
    rw [handleError_Message_eq, asString_eq_none.mpr hm, asString_eq_none.mpr he]
  · rw [handleError_Message_eq]; rfl
  · rw [handleError_Message_eq]; rfl
  · rw [handleError_Message_eq]; rfl
  · rw [handleError_Message_eq]; rfl
  · rw [handleError_Message_eq]; rfl

/-! ## Lemmas on request -/

/-- Once a request is ready and the transport answers with a readable body
that decodes, `request` is decided by the status code alone. -/
theorem request_of_response (L : Lib) (c : Client) (method path : String)
    (body : Option L.Body) (params : List (String × String)) (req : Request)
    (resp : Response) (raw : String) (result : Option Obj)
    (hready : prepareRequest L c method path body params = .ready req)
    (hsend : L.roundTrip c.timeout req = .ok resp)
    (hread : resp.Body = .ok raw)
    (hparse : L.jsonUnmarshal raw = .ok result) :
    request L c method path body params =
      if resp.StatusCode ≥ 400 then .returned none (some (handleError resp.StatusCode result))
      else .returned result none := by
  unfold request
  rw [hready]
  simp only []
  rw [hsend]
  simp only []
  unfold decodeResponse
  rw [hread]
  simp only []
  rw [hparse]

/-- Every error return of `request` carries a nil map. -/
theorem request_error_has_no_value (L : Lib) (c : Client) (method path : String)
    (body : Option L.Body) (params : List (String × String)) (resp : Option Obj) (e : Error)
    (h : request L c method path body params = .returned resp (some e)) : resp = none := by
  unfold request at h
  split at h
  · cases h
  · cases h; rfl
  · split at h
    · cases h; rfl
    · unfold decodeResponse at h
      split at h
      · cases h; rfl
      · split at h
        · cases h; rfl
        · split at h
          · cases h; rfl
          · cases h

/-! ## C3: request on a decoded response -/

/-- C3: for every transport response whose body parses as a JSON object, if the
status code is at least 400 then `request` returns the error
`handleError(status, parsedBody)` and a nil map, and otherwise it returns the
parsed map unchanged and no error. -/
theorem request_routes_by_status (L : Lib) (c : Client) (method path : String)
    (body : Option L.Body) (params : List (String × String)) (req : Request)
    (resp : Response) (raw : String) (parsed : Obj)
    (hready : prepareRequest L c method path body params = .ready req)
    (hsend : L.roundTrip c.timeout req = .ok resp)
    (hread : resp.Body = .ok raw)
    (hparse : L.jsonUnmarshal raw = .ok (some parsed)) :
    (resp.StatusCode ≥ 400 →
        request L c method path body params =
          .returned none (some (handleError resp.StatusCode (some parsed)))) ∧
    (resp.StatusCode < 400 →
        request L c method path body params = .returned (some parsed) none) := by
  have h := request_of_response L c method path body params req resp raw (some parsed)
    hready hsend hread hparse
  constructor
  · intro hs
    rw [h, if_pos hs]
  · intro hs
    rw [h, if_neg (by omega)]

/-- C3 at a sample input: a 404 answer with the body `{"message":"no such job"}`
and a 200 answer with the body `{"id":"j1"}`. -/
theorem request_routes_by_status_witness :
    request (cannedLib 404 "\x7b\"message\":\"no such job\"\x7d"
        (some [("message", .string "no such job")]))
      sampleClient "GET" "/api/v1/jobs/j1" none []
      = .returned none (some (.NotFoundError "no such job")) ∧
    request (cannedLib 200 "\x7b\"id\":\"j1\"\x7d" (some [("id", .string "j1")]))
      sampleClient "GET" "/api/v1/jobs/j1" none []
      = .returned (some [("id", .string "j1")]) none :=
  ⟨(request_routes_by_status
      (cannedLib 404 "\x7b\"message\":\"no such job\"\x7d"
        (some [("message", .string "no such job")]))
      sampleClient "GET" "/api/v1/jobs/j1" none [] _ _ _ _ rfl rfl rfl rfl).1 (by decide),
   (request_routes_by_status
      (cannedLib 200 "\x7b\"id\":\"j1\"\x7d" (some [("id", .string "j1")]))
      sampleClient "GET" "/api/v1/jobs/j1" none [] _ _ _ _ rfl rfl rfl rfl).2 (by decide)⟩

/-! ## C4: which responses become errors -/

/-- C4 as stated fails: a 300 answer whose body is the JSON object `{}` is not
in 200..299, and `request` returns it as the success value with no error. -/
theorem request_non2xx_not_always_error :
    ¬ (∀ (L : Lib) (c : Client) (method path : String) (body : Option L.Body)
        (params : List (String × String)) (req : Request) (resp : Response) (raw : String)
        (parsed : Obj),
        prepareRequest L c method path body params = .ready req →
        L.roundTrip c.timeout req = .ok resp →
        resp.Body = .ok raw →
        L.jsonUnmarshal raw = .ok (some parsed) →
        ¬ (200 ≤ resp.StatusCode ∧ resp.StatusCode ≤ 299) →
        ∃ e, request L c method path body params = .returned none (some e)) := by
  intro h
  obtain ⟨e, he⟩ := h (cannedLib 300 "\x7b\x7d" (some [])) sampleClient "GET" "/api/v1/jobs/j1"
    none [] _ _ _ _ rfl rfl rfl rfl (by decide)
  have hok : request (cannedLib 300 "\x7b\x7d" (some [])) sampleClient "GET" "/api/v1/jobs/j1"
      none [] = .returned (some []) none := rfl
  rw [hok] at he
  cases he

/-- C4, amended: for every response whose status code is at least 400 and
whose body parses as a JSON object, `request` returns an error and a nil map,
the error being a SettlerError (Generic) with that status code when no
specific kind matches; a response with a status code below 400 is returned as
the success value, also when the code is outside 200..299. -/
theorem request_error_threshold (L : Lib) (c : Client) (method path : String)
    (body : Option L.Body) (params : List (String × String)) (req : Request)
    (resp : Response) (raw : String) (parsed : Obj)
    (hready : prepareRequest L c method path body params = .ready req)
    (hsend : L.roundTrip c.timeout req = .ok resp)
    (hread : resp.Body = .ok raw)
    (hparse : L.jsonUnmarshal raw = .ok (some parsed)) :
    (resp.StatusCode ≥ 400 →
        ∃ e, request L c method path body params = .returned none (some e) ∧
          (resp.StatusCode ≠ 401 → resp.StatusCode ≠ 403 → resp.StatusCode ≠ 404 →
            resp.StatusCode ≠ 422 → resp.StatusCode ≠ 429 → resp.StatusCode < 500 →
            e.kind = .Generic ∧ e.StatusCode = some resp.StatusCode)) ∧
    (resp.StatusCode < 400 →
        request L c method path body params = .returned (some parsed) none) := by
  have h := request_of_response L c method path body params req resp raw (some parsed)
    hready hsend hread hparse
  constructor
  · intro hs
    refine ⟨handleError resp.StatusCode (some parsed), ?_, ?_⟩
    · rw [h, if_pos hs]
    · intro a b c1 d e1 f
      obtain ⟨m, hm⟩ := handleError_default resp.StatusCode (some parsed) a b c1 d e1 f
      rw [hm]
      exact ⟨rfl, rfl⟩
  · intro hs
    rw [h, if_neg (by omega)]

/-- C4 amended, at sample inputs: a 400 answer becomes a SettlerError and a
300 answer is a success. -/
theorem request_error_threshold_witness :
    (∃ e, request (cannedLib 400 "\x7b\x7d" (some [])) sampleClient "GET" "/api/v1/jobs/j1"
        none [] = .returned none (some e) ∧ e.kind = .Generic ∧ e.StatusCode = some 400) ∧
    request (cannedLib 300 "\x7b\x7d" (some [])) sampleClient "GET" "/api/v1/jobs/j1" none []
      = .returned (some []) none := by
  have h400 := (request_error_threshold (cannedLib 400 "\x7b\x7d" (some [])) sampleClient "GET"
    "/api/v1/jobs/j1" none [] _ _ _ _ rfl rfl rfl rfl).1 (by decide)
  have h300 := (request_error_threshold (cannedLib 300 "\x7b\x7d" (some [])) sampleClient "GET"
    "/api/v1/jobs/j1" none [] _ _ _ _ rfl rfl rfl rfl).2 (by decide)
  obtain ⟨e, he, hk⟩ := h400
  exact ⟨⟨e, he, hk (by decide) (by decide) (by decide) (by decide) (by decide) (by decide)⟩,
    h300⟩

/-! ## C6: NewClient -/

/-- When every option is a function that never panics, the loop of `NewClient`
ends with a client and runs each option once. -/
theorem applyOptions_of_total (options : List ClientOption) :
    (∀ o ∈ options, ∃ f : Client → Option Client, o = some f ∧ ∀ c, f c ≠ none) →
    ∀ (position : Nat) (c : Client),
      (∃ configured, (applyOptions options position c).1 = some configured) ∧
      (applyOptions options position c).2.length = options.length := by
  induction options with
  | nil =>
    intro _ position c
    exact ⟨⟨c, rfl⟩, rfl⟩
  | cons o rest ih =>
    intro h position c
    obtain ⟨f, rfl, hf⟩ := h o (List.mem_cons_self _ _)
    have hrest := ih (fun o' ho' => h o' (List.mem_cons_of_mem _ ho'))
    cases hfc : f c with
    | none => exact absurd hfc (hf c)
    | some updated =>
      obtain ⟨⟨configured, hc⟩, hl⟩ := hrest (position + 1) updated
      simp only [applyOptions, hfc]
      exact ⟨⟨configured, hc⟩, by simp [hl]⟩

/-- C6 as stated fails: with the non-empty key "k" and a nil option,
`NewClient` calls the nil function value at line 37 and panics, so it returns
neither a client nor an error. -/
theorem NewClient_nonempty_key_can_panic :
    (NewClient "k" [none]).result = .panicked ∧
    ¬ (∀ (apiKey : String) (options : List ClientOption), apiKey ≠ "" →
        ∃ client, (NewClient apiKey options).result = .returned (some client) none) := by
  refine ⟨rfl, ?_⟩
  intro h
  obtain ⟨client, hc⟩ := h "k" [none] (by decide)
  have hp : (NewClient "k" [none]).result = .panicked := rfl
  rw [hp] at hc
  cases hc

/-- C6, amended: `NewClient` returns an error and no client exactly when the
API key is empty, and in that case no option is applied and no transport is
created, whatever the options are; for every non-empty key and options that
are all non-nil and do not panic it returns a client and no error, after
creating the transport and running every option once; with a non-empty key a
nil option makes it panic. -/
theorem NewClient_empty_key_iff (apiKey : String) (options : List ClientOption) :
    ((∃ e, (NewClient apiKey options).result = .returned none (some e)) ↔ apiKey = "") ∧
    (apiKey = "" → (NewClient apiKey options).effects = []) ∧
    (apiKey ≠ "" →
      (∀ o ∈ options, ∃ f : Client → Option Client, o = some f ∧ ∀ c, f c ≠ none) →
        (∃ client, (NewClient apiKey options).result = .returned (some client) none) ∧
        (NewClient apiKey options).effects.length = options.length + 1) ∧
    (apiKey ≠ "" → (NewClient apiKey (none :: options)).result = .panicked) := by
  refine ⟨?_, ?_, ?_, ?_⟩
  · constructor
    · rintro ⟨e, he⟩
      by_contra hne
      simp only [NewClient, if_neg hne] at he
      split at he <;> cases he
    · intro h
      subst h
      exact ⟨_, rfl⟩
  · intro h
    subst h
    rfl
  · intro hne hopts
    obtain ⟨⟨configured, hc⟩, hl⟩ := applyOptions_of_total options hopts 0
      { apiKey := apiKey, baseURL := "https://api.settler.io",
        timeout := 30 * 1000000000, dedupeCache := [] }
    simp only [NewClient, if_neg hne, hc, List.length_cons, hl]
    exact ⟨⟨configured, rfl⟩, trivial⟩
  · intro hne
    simp only [NewClient, if_neg hne, applyOptions]

/-- C6 amended, at a sample input: a key and two options give a client and no
error after three effects, and with the empty key nothing is done, also when a
nil option is supplied. -/
theorem NewClient_empty_key_iff_witness :
    ((∃ client, (NewClient "sk_test"
          [WithBaseURL "https://sandbox.settler.io", WithTimeout 5]).result
        = .returned (some client) none) ∧
      (NewClient "sk_test"
          [WithBaseURL "https://sandbox.settler.io", WithTimeout 5]).effects.length = 2 + 1) ∧
    (NewClient "" [WithBaseURL "https://sandbox.settler.io", none]).effects = [] :=
  ⟨(NewClient_empty_key_iff "sk_test"
      [WithBaseURL "https://sandbox.settler.io", WithTimeout 5]).2.2.1 (by decide)
      (by
        intro o ho
        simp only [List.mem_cons, List.mem_singleton, List.not_mem_nil, or_false] at ho
        rcases ho with rfl | rfl
        · exact ⟨_, rfl, fun c => by simp⟩
        · exact ⟨_, rfl, fun c => by simp⟩),
   (NewClient_empty_key_iff "" [WithBaseURL "https://sandbox.settler.io", none]).2.1 rfl⟩

/-! ## C5: the deduplication key -/

/-- The characters of the digest input. -/
theorem keyData_data (method uri bodyStr : String) :
    (keyData method uri bodyStr).data
      = method.data ++ ':' :: (uri.data ++ ':' :: bodyStr.data) := by
  simp [keyData, String.data_append]

/-- A list is split in one way only at the first occurrence of a character. -/
theorem split_at_first {ch : Char} :
    ∀ {a₁ a₂ r₁ r₂ : List Char}, ch ∉ a₁ → ch ∉ a₂ →
      a₁ ++ ch :: r₁ = a₂ ++ ch :: r₂ → a₁ = a₂ ∧ r₁ = r₂
  | [], [], _, _, _, _, h => by simpa using h
  | [], y :: a₂, _, _, _, h₂, h => by
    simp only [List.nil_append, List.cons_append, List.cons.injEq] at h
    exact absurd (h.1 ▸ List.mem_cons_self _ _) h₂
  | x :: a₁, [], _, _, h₁, _, h => by
    simp only [List.nil_append, List.cons_append, List.cons.injEq] at h
    exact absurd (h.1 ▸ List.mem_cons_self _ _) h₁
  | x :: a₁, y :: a₂, r₁, r₂, h₁, h₂, h => by
    simp only [List.cons_append, List.cons.injEq] at h
    have ih := split_at_first (fun hm => h₁ (List.mem_cons_of_mem _ hm))
      (fun hm => h₂ (List.mem_cons_of_mem _ hm)) h.2
    exact ⟨by rw [h.1, ih.1], ih.2⟩

/-- The scan of a concatenation continues from where the first part ends. -/
theorem scan_append (a b : List Char) :
    ∀ st : ScanMode × Nat, scan st (a ++ b) = (scan st a).bind (fun mid => scan mid b) := by
  induction a with
  | nil => intro st; rfl
  | cons x xs ih =>
    intro st
    simp only [List.cons_append, scan]
    cases scanStep st.1 st.2 x with
    | none => rfl
    | some next => exact ih next

/-- With more brackets open at the start, one step gives the same mode and as
many more brackets open. -/
theorem scanStep_shift (k : Nat) (mode : ScanMode) (depth : Nat) (ch : Char)
    (next : ScanMode × Nat) (h : scanStep mode depth ch = some next) :
    scanStep mode (depth + k) ch = some (next.1, next.2 + k) := by
  cases mode with
  | outside =>
    simp only [scanStep] at h ⊢
    split_ifs at h ⊢ <;> first
      | (cases h; rfl)
      | (cases h; simp only [Option.some.injEq, Prod.mk.injEq, true_and]; omega)
      | omega
  | inString =>
    simp only [scanStep] at h ⊢
    split_ifs at h ⊢ <;> (cases h; rfl)
  | escaped =>
    simp only [scanStep] at h ⊢
    cases h
    rfl

/-- With more brackets open at the start, a scan that succeeds still succeeds,
in the same mode and with as many more brackets open. -/
theorem scan_shift (k : Nat) (s : List Char) :
    ∀ (st final : ScanMode × Nat), scan st s = some final →
      scan (st.1, st.2 + k) s = some (final.1, final.2 + k) := by
  induction s with
  | nil =>
    intro st final h
    simp only [scan, Option.some.injEq] at h
    subst h
    rfl
  | cons x xs ih =>
    intro st final h
    simp only [scan] at h ⊢
    cases hstep : scanStep st.1 st.2 x with
    | none => rw [hstep] at h; cases h
    | some next =>
      rw [hstep] at h
      rw [scanStep_shift k st.1 st.2 x next hstep]
      exact ih next final h

/-- Two scans of one text, one currently inside a string literal and the other
between tokens: after any text that both read, again one is inside a string
literal and the other between tokens. -/
theorem scan_opposite (s : List Char) :
    ∀ (m₁ m₂ : ScanMode) (d₁ d₂ : Nat) (f₁ f₂ : ScanMode × Nat),
      (m₁ = .inString ∧ m₂ = .outside) ∨ (m₁ = .outside ∧ m₂ = .inString) →
      scan (m₁, d₁) s = some f₁ → scan (m₂, d₂) s = some f₂ →
      (f₁.1 = .inString ∧ f₂.1 = .outside) ∨ (f₁.1 = .outside ∧ f₂.1 = .inString) := by
  induction s with
  | nil =>
    intro m₁ m₂ d₁ d₂ f₁ f₂ hopp h₁ h₂
    simp only [scan, Option.some.injEq] at h₁ h₂
    subst h₁
    subst h₂
    exact hopp
  | cons x xs ih =>
    intro m₁ m₂ d₁ d₂ f₁ f₂ hopp h₁ h₂
    simp only [scan] at h₁ h₂
    cases hs₁ : scanStep m₁ d₁ x with
    | none => rw [hs₁] at h₁; cases h₁
    | some n₁ =>
      cases hs₂ : scanStep m₂ d₂ x with
      | none => rw [hs₂] at h₂; cases h₂
      | some n₂ =>
        rw [hs₁] at h₁
        rw [hs₂] at h₂
        refine ih n₁.1 n₂.1 n₁.2 n₂.2 f₁ f₂ ?_ h₁ h₂
        rcases hopp with ⟨rfl, rfl⟩ | ⟨rfl, rfl⟩
        · simp only [scanStep] at hs₁ hs₂
          split_ifs at hs₁ hs₂ <;> cases hs₁ <;> cases hs₂ <;> simp
        · simp only [scanStep] at hs₁ hs₂
          split_ifs at hs₁ hs₂ <;> cases hs₁ <;> cases hs₂ <;> simp

/-- A colon between tokens is read only while a bracket is open. -/
theorem scanStep_outside_colon (depth : Nat) :
    scanStep .outside depth ':' = if depth = 0 then none else some (.outside, depth) := by
  have h1 : ¬ (':' = '"') := by decide
  have h2 : ¬ (':' = '\\') := by decide
  have h3 : ¬ (':' = '{' ∨ ':' = '[') := by decide
  have h4 : ¬ (':' = '}' ∨ ':' = ']') := by decide
  simp only [scanStep, if_neg h1, if_neg h2, if_neg h3, if_neg h4, if_true]

/-- A colon inside a string literal leaves the scan inside it. -/
theorem scanStep_inString_colon (depth : Nat) :
    scanStep .inString depth ':' = some (.inString, depth) := by
  have h1 : ¬ (':' = '"') := by decide
  have h2 : ¬ (':' = '\\') := by decide
  simp only [scanStep, if_neg h1, if_neg h2]

/-- What follows a colon in a JSON-shaped text is not JSON-shaped (nor empty):
after a colon between tokens a bracket is still open, and after a colon inside
a string literal the literal is still open. -/
theorem scan_after_colon (x rest : List Char)
    (h : scan (.outside, 0) (x ++ ':' :: rest) = some (.outside, 0)) :
    scan (.outside, 0) rest ≠ some (.outside, 0) := by
  intro hrest
  rw [scan_append] at h
  cases hx : scan (.outside, 0) x with
  | none => rw [hx] at h; cases h
  | some mid =>
    rw [hx] at h
    simp only [Option.bind, scan] at h
    obtain ⟨mode, depth⟩ := mid
    cases mode with
    | outside =>
      simp only [scanStep_outside_colon] at h
      by_cases hd : depth = 0
      · simp [hd] at h
      · simp only [if_neg hd] at h
        have hs := scan_shift depth rest (.outside, 0) (.outside, 0) hrest
        simp only [Nat.zero_add] at hs
        rw [hs] at h
        simp only [Option.some.injEq, Prod.mk.injEq, true_and] at h
        exact hd h
    | inString =>
      simp only [scanStep_inString_colon] at h
      have := scan_opposite rest .inString .outside depth 0 _ _ (Or.inl ⟨rfl, rfl⟩) h hrest
      simp at this
    | escaped =>
      simp only [scanStep] at h
      have := scan_opposite rest .inString .outside depth 0 _ _ (Or.inl ⟨rfl, rfl⟩) h hrest
      simp at this

/-- A URI and a JSON-shaped body are recovered from their join by a colon. -/
theorem split_uri_body :
    ∀ {u₁ u₂ b₁ b₂ : List Char},
      scan (.outside, 0) b₁ = some (.outside, 0) → scan (.outside, 0) b₂ = some (.outside, 0) →
      u₁ ++ ':' :: b₁ = u₂ ++ ':' :: b₂ → u₁ = u₂ ∧ b₁ = b₂
  | [], [], _, _, _, _, h => by simpa using h
  | [], y :: u₂, b₁, b₂, h₁, h₂, h => by
    simp only [List.nil_append, List.cons_append, List.cons.injEq] at h
    obtain ⟨rfl, hb⟩ := h
    rw [hb] at h₁
    exact absurd h₂ (scan_after_colon u₂ b₂ h₁)
  | x :: u₁, [], b₁, b₂, h₁, h₂, h => by
    simp only [List.nil_append, List.cons_append, List.cons.injEq] at h
    obtain ⟨rfl, hb⟩ := h
    rw [← hb] at h₂
    exact absurd h₁ (scan_after_colon u₁ b₁ h₂)
  | x :: u₁, y :: u₂, b₁, b₂, h₁, h₂, h => by
    simp only [List.cons_append, List.cons.injEq] at h
    have ih := split_uri_body h₁ h₂ h.2
    exact ⟨by rw [h.1, ih.1], ih.2⟩

/-- C5: `generateDedupKey` is a function of method, URI and serialized body
(empty when the body is absent), and for every two such triples that differ in
at least one component, with methods free of colons and bodies serialized as
JSON texts, the strings fed to the digest differ, so the keys differ whenever
the digest does not collide on them. -/
theorem generateDedupKey_distinct (L : Lib) (m₁ u₁ m₂ u₂ : String)
    (body₁ body₂ : Option L.Body)
    (hm₁ : ':' ∉ m₁.data) (hm₂ : ':' ∉ m₂.data)
    (hb₁ : jsonShaped (bodyString L body₁)) (hb₂ : jsonShaped (bodyString L body₂))
    (hne : (m₁, u₁, bodyString L body₁) ≠ (m₂, u₂, bodyString L body₂)) :
    keyData m₁ u₁ (bodyString L body₁) ≠ keyData m₂ u₂ (bodyString L body₂) ∧
    ((L.sha256Hex (keyData m₁ u₁ (bodyString L body₁))
          = L.sha256Hex (keyData m₂ u₂ (bodyString L body₂)) →
        keyData m₁ u₁ (bodyString L body₁) = keyData m₂ u₂ (bodyString L body₂)) →
      generateDedupKey L m₁ u₁ body₁ ≠ generateDedupKey L m₂ u₂ body₂) ∧
    (∀ body₃ : Option L.Body, bodyString L body₃ = bodyString L body₁ →
      generateDedupKey L m₁ u₁ body₃ = generateDedupKey L m₁ u₁ body₁) := by
  have hdiff : keyData m₁ u₁ (bodyString L body₁) ≠ keyData m₂ u₂ (bodyString L body₂) := by
    intro heq
    have hd := congrArg String.data heq
    rw [keyData_data, keyData_data] at hd
    obtain ⟨hm, hrest⟩ := split_at_first hm₁ hm₂ hd
    obtain ⟨hu, hb⟩ := split_uri_body hb₁ hb₂ hrest
    apply hne
    rw [String.ext hm, String.ext hu, String.ext hb]
  refine ⟨hdiff, ?_, ?_⟩
  · intro hinj hkey
    exact hdiff (hinj hkey)
  · intro body₃ h
    unfold generateDedupKey
    rw [h]

/-- C5 at a sample input: two POST requests to different URIs with different
object bodies, where URIs and bodies all contain colons (one inside a string
literal, next to escaped quotes), get different digest inputs. -/
theorem generateDedupKey_distinct_witness :
    keyData "POST" "https://api.settler.io/api/v1/jobs"
        "\x7b\"name\":\"a:b\",\"rules\":[\x7b\"k\":\"\\\"q\\\"\"\x7d]\x7d" ≠
      keyData "POST" "https://api.settler.io/api/v1/webhooks" "\x7b\"url\":\"b\"\x7d" :=
  (generateDedupKey_distinct (cannedLib 200 "" none)
    "POST" "https://api.settler.io/api/v1/jobs" "POST" "https://api.settler.io/api/v1/webhooks"
    (some "\x7b\"name\":\"a:b\",\"rules\":[\x7b\"k\":\"\\\"q\\\"\"\x7d]\x7d")
    (some "\x7b\"url\":\"b\"\x7d")
    (by decide) (by decide) (by decide) (by decide) (by decide)).1

/-! ## The facades in terms of the result of request -/

theorem asObject_eq_some {v : Option JSON} {m : Obj} :
    asObject v = some m ↔ v = some (.object m) := by
  constructor
  · intro h
    match v, h with
    | some (.object t), h => simp [asObject] at h; simp [h]
  · intro h
    simp [h, asObject]

theorem asObject_eq_none {v : Option JSON} :
    asObject v = none ↔ ∀ m, v ≠ some (.object m) := by
  constructor
  · intro h m hv
    simp [hv, asObject] at h
  · intro h
    match v, h with
    | none, _ => rfl
    | some .null, _ => rfl
    | some (.bool _), _ => rfl
    | some (.number _), _ => rfl
    | some (.string _), _ => rfl
    | some (.array _), _ => rfl
    | some (.object t), h => exact absurd rfl (h t)

theorem asArray_eq_some {v : Option JSON} {xs : List JSON} :
    asArray v = some xs ↔ v = some (.array xs) := by
  constructor
  · intro h
    match v, h with
    | some (.array t), h => simp [asArray] at h; simp [h]
  · intro h
    simp [h, asArray]

theorem asArray_eq_none {v : Option JSON} :
    asArray v = none ↔ ∀ xs, v ≠ some (.array xs) := by
  constructor
  · intro h xs hv
    simp [hv, asArray] at h
  · intro h
    match v, h with
    | none, _ => rfl
    | some .null, _ => rfl
    | some (.bool _), _ => rfl
    | some (.number _), _ => rfl
    | some (.string _), _ => rfl
    | some (.array t), h => exact absurd rfl (h t)
    | some (.object _), _ => rfl

/-- What `JobsClient.Create` makes of each result of `request`. -/
theorem JobsClient_Create_cases (L : Lib) (jc : JobsClient) (req : L.Body) :
    (∀ resp e, request L jc.client "POST" "/api/v1/jobs" (some req) [] = .returned resp (some e) →
        JobsClient.Create L jc req = .returned none (some e)) ∧
    (∀ resp d, request L jc.client "POST" "/api/v1/jobs" (some req) [] = .returned resp none →
        index resp "data" = some (.object d) →
        JobsClient.Create L jc req = .returned (some d) none) ∧
    (∀ resp, request L jc.client "POST" "/api/v1/jobs" (some req) [] = .returned resp none →
        (∀ d, index resp "data" ≠ some (.object d)) →
        JobsClient.Create L jc req = .returned resp none) := by
  refine ⟨?_, ?_, ?_⟩
  · intro resp e h
    unfold JobsClient.Create
    try simp only []
    rw [h]
  · intro resp d h hd
    unfold JobsClient.Create
    try simp only []
    rw [h]
    simp only []
    rw [asObject_eq_some.mpr hd]
  · intro resp h hd
    unfold JobsClient.Create
    try simp only []
    rw [h]
    simp only []
    rw [asObject_eq_none.mpr hd]

/-- What `JobsClient.Get` makes of each result of `request`. -/
theorem JobsClient_Get_cases (L : Lib) (jc : JobsClient) (jobID : String) :
    (∀ resp e, request L jc.client "GET" ("/api/v1/jobs/" ++ jobID) none [] = .returned resp (some e) →
        JobsClient.Get L jc jobID = .returned none (some e)) ∧
    (∀ resp d, request L jc.client "GET" ("/api/v1/jobs/" ++ jobID) none [] = .returned resp none →
        index resp "data" = some (.object d) →
        JobsClient.Get L jc jobID = .returned (some d) none) ∧
    (∀ resp, request L jc.client "GET" ("/api/v1/jobs/" ++ jobID) none [] = .returned resp none →
        (∀ d, index resp "data" ≠ some (.object d)) →
        JobsClient.Get L jc jobID = .returned resp none) := by
  refine ⟨?_, ?_, ?_⟩
  · intro resp e h
    unfold JobsClient.Get
    try simp only []
    rw [h]
  · intro resp d h hd
    unfold JobsClient.Get
    try simp only []
    rw [h]
    simp only []
    rw [asObject_eq_some.mpr hd]
  · intro resp h hd
    unfold JobsClient.Get
    try simp only []
    rw [h]
    simp only []
    rw [asObject_eq_none.mpr hd]

/-- What `JobsClient.Run` makes of each result of `request`. -/
theorem JobsClient_Run_cases (L : Lib) (jc : JobsClient) (jobID : String) :
    (∀ resp e, request L jc.client "POST" ("/api/v1/jobs/" ++ jobID ++ "/run") none [] = .returned resp (some e) →
        JobsClient.Run L jc jobID = .returned none (some e)) ∧
    (∀ resp d, request L jc.client "POST" ("/api/v1/jobs/" ++ jobID ++ "/run") none [] = .returned resp none →
        index resp "data" = some (.object d) →
        JobsClient.Run L jc jobID = .returned (some d) none) ∧
    (∀ resp, request L jc.client "POST" ("/api/v1/jobs/" ++ jobID ++ "/run") none [] = .returned resp none →
        (∀ d, index resp "data" ≠ some (.object d)) →
        JobsClient.Run L jc jobID = .returned resp none) := by
  refine ⟨?_, ?_, ?_⟩
  · intro resp e h
    unfold JobsClient.Run
    try simp only []
    rw [h]
  · intro resp d h hd
    unfold JobsClient.Run
    try simp only []
    rw [h]
    simp only []
    rw [asObject_eq_some.mpr hd]
  · intro resp h hd
    unfold JobsClient.Run
    try simp only []
    rw [h]
    simp only []
    rw [asObject_eq_none.mpr hd]

/-- What `ReportsClient.Get` makes of each result of `request`. -/
theorem ReportsClient_Get_cases (L : Lib) (rc : ReportsClient) (jobID executionID : String) :
    (∀ resp e, request L rc.client "GET"
        (if executionID ≠ "" then "/api/v1/reports/" ++ jobID ++ "/" ++ executionID
         else "/api/v1/reports/" ++ jobID) none [] = .returned resp (some e) →
        ReportsClient.Get L rc jobID executionID = .returned none (some e)) ∧
    (∀ resp d, request L rc.client "GET"
        (if executionID ≠ "" then "/api/v1/reports/" ++ jobID ++ "/" ++ executionID
         else "/api/v1/reports/" ++ jobID) none [] = .returned resp none →
        index resp "data" = some (.object d) →
        ReportsClient.Get L rc jobID executionID = .returned (some d) none) ∧
    (∀ resp, request L rc.client "GET"
        (if executionID ≠ "" then "/api/v1/reports/" ++ jobID ++ "/" ++ executionID
         else "/api/v1/reports/" ++ jobID) none [] = .returned resp none →
        (∀ d, index resp "data" ≠ some (.object d)) →
        ReportsClient.Get L rc jobID executionID = .returned resp none) := by
  refine ⟨?_, ?_, ?_⟩
  · intro resp e h
    unfold ReportsClient.Get
    try simp only []
    rw [h]
  · intro resp d h hd
    unfold ReportsClient.Get
    try simp only []
    rw [h]
    simp only []
    rw [asObject_eq_some.mpr hd]
  · intro resp h hd
    unfold ReportsClient.Get
    try simp only []
    rw [h]
    simp only []
    rw [asObject_eq_none.mpr hd]

/-- What `WebhooksClient.Create` makes of each result of `request`. -/
theorem WebhooksClient_Create_cases (L : Lib) (wc : WebhooksClient) (req : L.Body) :
    (∀ resp e, request L wc.client "POST" "/api/v1/webhooks" (some req) [] = .returned resp (some e) →
        WebhooksClient.Create L wc req = .returned none (some e)) ∧
    (∀ resp d, request L wc.client "POST" "/api/v1/webhooks" (some req) [] = .returned resp none →
        index resp "data" = some (.object d) →
        WebhooksClient.Create L wc req = .returned (some d) none) ∧
    (∀ resp, request L wc.client "POST" "/api/v1/webhooks" (some req) [] = .returned resp none →
        (∀ d, index resp "data" ≠ some (.object d)) →
        WebhooksClient.Create L wc req = .returned resp none) := by
  refine ⟨?_, ?_, ?_⟩
  · intro resp e h
    unfold WebhooksClient.Create
    try simp only []
    rw [h]
  · intro resp d h hd
    unfold WebhooksClient.Create
    try simp only []
    rw [h]
    simp only []
    rw [asObject_eq_some.mpr hd]
  · intro resp h hd
    unfold WebhooksClient.Create
    try simp only []
    rw [h]
    simp only []
    rw [asObject_eq_none.mpr hd]

/-- What `AdaptersClient.Get` makes of each result of `request`. -/
theorem AdaptersClient_Get_cases (L : Lib) (ac : AdaptersClient) (adapterName : String) :
    (∀ resp e, request L ac.client "GET" ("/api/v1/adapters/" ++ adapterName) none [] = .returned resp (some e) →
        AdaptersClient.Get L ac adapterName = .returned none (some e)) ∧
    (∀ resp d, request L ac.client "GET" ("/api/v1/adapters/" ++ adapterName) none [] = .returned resp none →
        index resp "data" = some (.object d) →
        AdaptersClient.Get L ac adapterName = .returned (some d) none) ∧
    (∀ resp, request L ac.client "GET" ("/api/v1/adapters/" ++ adapterName) none [] = .returned resp none →
        (∀ d, index resp "data" ≠ some (.object d)) →
        AdaptersClient.Get L ac adapterName = .returned resp none) := by
  refine ⟨?_, ?_, ?_⟩
  · intro resp e h
    unfold AdaptersClient.Get
    try simp only []
    rw [h]
  · intro resp d h hd
    unfold AdaptersClient.Get
    try simp only []
    rw [h]
    simp only []
    rw [asObject_eq_some.mpr hd]
  · intro resp h hd
    unfold AdaptersClient.Get
    try simp only []
    rw [h]
    simp only []
    rw [asObject_eq_none.mpr hd]

/-- What `ReportsClient.GetUnmatched` makes of each result of `request`. -/
theorem ReportsClient_GetUnmatched_cases (L : Lib) (rc : ReportsClient) (jobID executionID : String) :
    (∀ resp e, request L rc.client "GET" ("/api/v1/reports/" ++ jobID ++ "/unmatched") none
        (if executionID ≠ "" then [("execution_id", executionID)] else []) = .returned resp (some e) →
        ReportsClient.GetUnmatched L rc jobID executionID = .returned none (some e)) ∧
    (∀ resp xs, request L rc.client "GET" ("/api/v1/reports/" ++ jobID ++ "/unmatched") none
        (if executionID ≠ "" then [("execution_id", executionID)] else []) = .returned resp none →
        index resp "data" = some (.array xs) →
        ReportsClient.GetUnmatched L rc jobID executionID = .returned (some xs) none) ∧
    (∀ resp, request L rc.client "GET" ("/api/v1/reports/" ++ jobID ++ "/unmatched") none
        (if executionID ≠ "" then [("execution_id", executionID)] else []) = .returned resp none →
        (∀ xs, index resp "data" ≠ some (.array xs)) →
        ReportsClient.GetUnmatched L rc jobID executionID = .returned (some []) none) := by
  refine ⟨?_, ?_, ?_⟩
  · intro resp e h
    unfold ReportsClient.GetUnmatched
    try simp only []
    rw [h]
  · intro resp xs h hd
    unfold ReportsClient.GetUnmatched
    try simp only []
    rw [h]
    simp only []
    rw [asArray_eq_some.mpr hd]
  · intro resp h hd
    unfold ReportsClient.GetUnmatched
    try simp only []
    rw [h]
    simp only []
    rw [asArray_eq_none.mpr hd]

/-- What `WebhooksClient.List` makes of each result of `request`. -/
theorem WebhooksClient_List_cases (L : Lib) (wc : WebhooksClient)  :
    (∀ resp e, request L wc.client "GET" "/api/v1/webhooks" none [] = .returned resp (some e) →
        WebhooksClient.List L wc = .returned none (some e)) ∧
    (∀ resp xs, request L wc.client "GET" "/api/v1/webhooks" none [] = .returned resp none →
        index resp "data" = some (.array xs) →
        WebhooksClient.List L wc = .returned (some xs) none) ∧
    (∀ resp, request L wc.client "GET" "/api/v1/webhooks" none [] = .returned resp none →
        (∀ xs, index resp "data" ≠ some (.array xs)) →
        WebhooksClient.List L wc = .returned (some []) none) := by
  refine ⟨?_, ?_, ?_⟩
  · intro resp e h
    unfold WebhooksClient.List
    try simp only []
    rw [h]
  · intro resp xs h hd
    unfold WebhooksClient.List
    try simp only []
    rw [h]
    simp only []
    rw [asArray_eq_some.mpr hd]
  · intro resp h hd
    unfold WebhooksClient.List
    try simp only []
    rw [h]
    simp only []
    rw [asArray_eq_none.mpr hd]

/-- What `AdaptersClient.List` makes of each result of `request`. -/
theorem AdaptersClient_List_cases (L : Lib) (ac : AdaptersClient)  :
    (∀ resp e, request L ac.client "GET" "/api/v1/adapters" none [] = .returned resp (some e) →
        AdaptersClient.List L ac = .returned none (some e)) ∧
    (∀ resp xs, request L ac.client "GET" "/api/v1/adapters" none [] = .returned resp none →
        index resp "data" = some (.array xs) →
        AdaptersClient.List L ac = .returned (some xs) none) ∧
    (∀ resp, request L ac.client "GET" "/api/v1/adapters" none [] = .returned resp none →
        (∀ xs, index resp "data" ≠ some (.array xs)) →
        AdaptersClient.List L ac = .returned (some []) none) := by
  refine ⟨?_, ?_, ?_⟩
  · intro resp e h
    unfold AdaptersClient.List
    try simp only []
    rw [h]
  · intro resp xs h hd
    unfold AdaptersClient.List
    try simp only []
    rw [h]
    simp only []
    rw [asArray_eq_some.mpr hd]
  · intro resp h hd
    unfold AdaptersClient.List
    try simp only []
    rw [h]
    simp only []
    rw [asArray_eq_none.mpr hd]

/-! ## C7: unwrapping the `data` key -/

/-- C7 as stated fails in three ways, each at a 200 answer. `Jobs.Get` on the
envelope `{"data":[],"total":"0"}` has a `data` key and returns the whole
envelope, not the stored array; `Webhooks.List` on the envelope
`{"items":[]}` has no `data` key and returns an empty list, not the envelope;
`Jobs.List` on the envelope `{"data":{"id":"j1"}}` returns the envelope, not
the stored object. -/
theorem facades_do_not_always_unwrap :
    (JobsClient.Get
        (cannedLib 200 "\x7b\"data\":[],\"total\":\"0\"\x7d"
          (some [("data", .array []), ("total", .string "0")]))
        sampleClient.Jobs "j1"
      = .returned (some [("data", .array []), ("total", .string "0")]) none ∧
     index (some [("data", .array []), ("total", .string "0")]) "data" = some (.array [])) ∧
    (WebhooksClient.List
        (cannedLib 200 "\x7b\"items\":[]\x7d" (some [("items", .array [])]))
        sampleClient.Webhooks
      = .returned (some []) none ∧
     index (some [("items", .array [])]) "data" = none) ∧
    (JobsClient.List
        (cannedLib 200 "\x7b\"data\":\x7b\"id\":\"j1\"\x7d\x7d"
          (some [("data", .object [("id", .string "j1")])]))
        sampleClient.Jobs 2 10
      = .returned (some [("data", .object [("id", .string "j1")])]) none ∧
     index (some [("data", .object [("id", .string "j1")])]) "data"
      = some (.object [("id", .string "j1")]) ∧
     JobsClient.List
        (cannedLib 200 "\x7b\"data\":\x7b\"id\":\"j1\"\x7d\x7d"
          (some [("data", .object [("id", .string "j1")])]))
        sampleClient.Jobs 2 10
      ≠ .returned (some [("id", .string "j1")]) none) := by
  refine ⟨⟨rfl, rfl⟩, ⟨rfl, rfl⟩, ⟨rfl, rfl, ?_⟩⟩
  intro h
  have h2 : JobsClient.List
        (cannedLib 200 "\x7b\"data\":\x7b\"id\":\"j1\"\x7d\x7d"
          (some [("data", .object [("id", .string "j1")])]))
        sampleClient.Jobs 2 10
      = .returned (some [("data", .object [("id", .string "j1")])]) none := rfl
  rw [h2] at h
  simp at h

/-- C7, amended: on a successful envelope from the dispatcher, `Jobs.Create`,
`Jobs.Get`, `Jobs.Run`, `Reports.Get`, `Webhooks.Create` and `Adapters.Get`
return the value under `data` when it is a JSON object and the top-level map
unchanged otherwise (no `data` key, or a value that is not an object);
`Reports.GetUnmatched`, `Webhooks.List` and `Adapters.List` return the value
under `data` when it is a JSON array and an empty list otherwise; `Jobs.List`
returns the dispatcher's map unchanged in every case. -/
theorem facades_unwrap_data (L : Lib) (jc : JobsClient) (rc : ReportsClient)
    (wc : WebhooksClient) (ac : AdaptersClient) (req : L.Body) (id executionID : String)
    (page limit : Int) (resp : Option Obj) :
    (request L jc.client "POST" "/api/v1/jobs" (some req) [] = .returned resp none →
      (∀ d, index resp "data" = some (.object d) →
        JobsClient.Create L jc req = .returned (some d) none) ∧
      ((∀ d, index resp "data" ≠ some (.object d)) →
        JobsClient.Create L jc req = .returned resp none)) ∧
    (request L jc.client "GET" ("/api/v1/jobs/" ++ id) none [] = .returned resp none →
      (∀ d, index resp "data" = some (.object d) →
        JobsClient.Get L jc id = .returned (some d) none) ∧
      ((∀ d, index resp "data" ≠ some (.object d)) →
        JobsClient.Get L jc id = .returned resp none)) ∧
    (request L jc.client "GET" "/api/v1/jobs" none
        [("page", formatInt page), ("limit", formatInt limit)] = .returned resp none →
      JobsClient.List L jc page limit = .returned resp none) ∧
    (request L jc.client "POST" ("/api/v1/jobs/" ++ id ++ "/run") none [] = .returned resp none →
      (∀ d, index resp "data" = some (.object d) →
        JobsClient.Run L jc id = .returned (some d) none) ∧
      ((∀ d, index resp "data" ≠ some (.object d)) →
        JobsClient.Run L jc id = .returned resp none)) ∧
    (request L rc.client "GET"
        (if executionID ≠ "" then "/api/v1/reports/" ++ id ++ "/" ++ executionID
         else "/api/v1/reports/" ++ id) none [] = .returned resp none →
      (∀ d, index resp "data" = some (.object d) →
        ReportsClient.Get L rc id executionID = .returned (some d) none) ∧
      ((∀ d, index resp "data" ≠ some (.object d)) →
        ReportsClient.Get L rc id executionID = .returned resp none)) ∧
    (request L rc.client "GET" ("/api/v1/reports/" ++ id ++ "/unmatched") none
        (if executionID ≠ "" then [("execution_id", executionID)] else [])
        = .returned resp none →
      (∀ xs, index resp "data" = some (.array xs) →
        ReportsClient.GetUnmatched L rc id executionID = .returned (some xs) none) ∧
      ((∀ xs, index resp "data" ≠ some (.array xs)) →
        ReportsClient.GetUnmatched L rc id executionID = .returned (some []) none)) ∧
    (request L wc.client "POST" "/api/v1/webhooks" (some req) [] = .returned resp none →
      (∀ d, index resp "data" = some (.object d) →
        WebhooksClient.Create L wc req = .returned (some d) none) ∧
      ((∀ d, index resp "data" ≠ some (.object d)) →
        WebhooksClient.Create L wc req = .returned resp none)) ∧
    (request L wc.client "GET" "/api/v1/webhooks" none [] = .returned resp none →
      (∀ xs, index resp "data" = some (.array xs) →
        WebhooksClient.List L wc = .returned (some xs) none) ∧
      ((∀ xs, index resp "data" ≠ some (.array xs)) →
        WebhooksClient.List L wc = .returned (some []) none)) ∧
    (request L ac.client "GET" "/api/v1/adapters" none [] = .returned resp none →
      (∀ xs, index resp "data" = some (.array xs) →
        AdaptersClient.List L ac = .returned (some xs) none) ∧
      ((∀ xs, index resp "data" ≠ some (.array xs)) →
        AdaptersClient.List L ac = .returned (some []) none)) ∧
    (request L ac.client "GET" ("/api/v1/adapters/" ++ id) none [] = .returned resp none →
      (∀ d, index resp "data" = some (.object d) →
        AdaptersClient.Get L ac id = .returned (some d) none) ∧
      ((∀ d, index resp "data" ≠ some (.object d)) →
        AdaptersClient.Get L ac id = .returned resp none)) := by
  refine ⟨?_, ?_, ?_, ?_, ?_, ?_, ?_, ?_, ?_, ?_⟩
  · intro h
    exact ⟨fun d hd => (JobsClient_Create_cases L jc req).2.1 resp d h hd,
      fun hd => (JobsClient_Create_cases L jc req).2.2 resp h hd⟩
  · intro h
    exact ⟨fun d hd => (JobsClient_Get_cases L jc id).2.1 resp d h hd,
      fun hd => (JobsClient_Get_cases L jc id).2.2 resp h hd⟩
  · intro h
    unfold JobsClient.List
    exact h
  · intro h
    exact ⟨fun d hd => (JobsClient_Run_cases L jc id).2.1 resp d h hd,
      fun hd => (JobsClient_Run_cases L jc id).2.2 resp h hd⟩
  · intro h
    exact ⟨fun d hd => (ReportsClient_Get_cases L rc id executionID).2.1 resp d h hd,
      fun hd => (ReportsClient_Get_cases L rc id executionID).2.2 resp h hd⟩
  · intro h
    exact ⟨fun xs hd => (ReportsClient_GetUnmatched_cases L rc id executionID).2.1 resp xs h hd,
      fun hd => (ReportsClient_GetUnmatched_cases L rc id executionID).2.2 resp h hd⟩
  · intro h
    exact ⟨fun d hd => (WebhooksClient_Create_cases L wc req).2.1 resp d h hd,
      fun hd => (WebhooksClient_Create_cases L wc req).2.2 resp h hd⟩
  · intro h
    exact ⟨fun xs hd => (WebhooksClient_List_cases L wc).2.1 resp xs h hd,
      fun hd => (WebhooksClient_List_cases L wc).2.2 resp h hd⟩
  · intro h
    exact ⟨fun xs hd => (AdaptersClient_List_cases L ac).2.1 resp xs h hd,
      fun hd => (AdaptersClient_List_cases L ac).2.2 resp h hd⟩
  · intro h
    exact ⟨fun d hd => (AdaptersClient_Get_cases L ac id).2.1 resp d h hd,
      fun hd => (AdaptersClient_Get_cases L ac id).2.2 resp h hd⟩

/-- C7 amended, at a sample input: on the 200 envelope `{"data":{"id":"j1"}}`
`Jobs.Get` returns the object under `data`. -/
theorem facades_unwrap_data_witness :
    JobsClient.Get
        (cannedLib 200 "\x7b\"data\":\x7b\"id\":\"j1\"\x7d\x7d"
          (some [("data", .object [("id", .string "j1")])]))
        sampleClient.Jobs "j1"
      = .returned (some [("id", .string "j1")]) none :=
  ((facades_unwrap_data
      (cannedLib 200 "\x7b\"data\":\x7b\"id\":\"j1\"\x7d\x7d"
        (some [("data", .object [("id", .string "j1")])]))
      sampleClient.Jobs sampleClient.Reports sampleClient.Webhooks sampleClient.Adapters
      "\x7b\x7d" "j1" "" 2 10 (some [("data", .object [("id", .string "j1")])])).2.1 rfl).1
    [("id", .string "j1")] rfl

/-! ## C8: facades propagate the dispatcher's error -/

/-- C8: every facade operation returns the error that `request` returned,
unchanged, with a nil success value; a Delete operation returns exactly the
error result of `request` (none if and only if `request` returned none),
whatever the response map was. -/
theorem facades_propagate_errors (L : Lib) (jc : JobsClient) (rc : ReportsClient)
    (wc : WebhooksClient) (ac : AdaptersClient) (req : L.Body) (id executionID : String)
    (page limit : Int) :
    (∀ resp e, request L jc.client "POST" "/api/v1/jobs" (some req) []
        = .returned resp (some e) →
      JobsClient.Create L jc req = .returned none (some e)) ∧
    (∀ resp e, request L jc.client "GET" ("/api/v1/jobs/" ++ id) none []
        = .returned resp (some e) →
      JobsClient.Get L jc id = .returned none (some e)) ∧
    (∀ resp e, request L jc.client "GET" "/api/v1/jobs" none
        [("page", formatInt page), ("limit", formatInt limit)] = .returned resp (some e) →
      JobsClient.List L jc page limit = .returned none (some e)) ∧
    (∀ resp e, request L jc.client "POST" ("/api/v1/jobs/" ++ id ++ "/run") none []
        = .returned resp (some e) →
      JobsClient.Run L jc id = .returned none (some e)) ∧
    (∀ resp err, request L jc.client "DELETE" ("/api/v1/jobs/" ++ id) none []
        = .returned resp err →
      JobsClient.Delete L jc id = .returned () err) ∧
    (∀ resp e, request L rc.client "GET"
        (if executionID ≠ "" then "/api/v1/reports/" ++ id ++ "/" ++ executionID
         else "/api/v1/reports/" ++ id) none [] = .returned resp (some e) →
      ReportsClient.Get L rc id executionID = .returned none (some e)) ∧
    (∀ resp e, request L rc.client "GET" ("/api/v1/reports/" ++ id ++ "/unmatched") none
        (if executionID ≠ "" then [("execution_id", executionID)] else [])
        = .returned resp (some e) →
      ReportsClient.GetUnmatched L rc id executionID = .returned none (some e)) ∧
    (∀ resp e, request L wc.client "POST" "/api/v1/webhooks" (some req) []
        = .returned resp (some e) →
      WebhooksClient.Create L wc req = .returned none (some e)) ∧
    (∀ resp e, request L wc.client "GET" "/api/v1/webhooks" none []
        = .returned resp (some e) →
      WebhooksClient.List L wc = .returned none (some e)) ∧
    (∀ resp err, request L wc.client "DELETE" ("/api/v1/webhooks/" ++ id) none []
        = .returned resp err →
      WebhooksClient.Delete L wc id = .returned () err) ∧
    (∀ resp e, request L ac.client "GET" "/api/v1/adapters" none []
        = .returned resp (some e) →
      AdaptersClient.List L ac = .returned none (some e)) ∧
    (∀ resp e, request L ac.client "GET" ("/api/v1/adapters/" ++ id) none []
        = .returned resp (some e) →
      AdaptersClient.Get L ac id = .returned none (some e)) := by
  refine ⟨?_, ?_, ?_, ?_, ?_, ?_, ?_, ?_, ?_, ?_, ?_, ?_⟩
  · exact (JobsClient_Create_cases L jc req).1
  · exact (JobsClient_Get_cases L jc id).1
  · intro resp e h
    have hnil := request_error_has_no_value L jc.client _ _ _ _ resp e h
    subst hnil
    unfold JobsClient.List
    exact h
  · exact (JobsClient_Run_cases L jc id).1
  · intro resp err h
    unfold JobsClient.Delete
    rw [h]
  · exact (ReportsClient_Get_cases L rc id executionID).1
  · exact (ReportsClient_GetUnmatched_cases L rc id executionID).1
  · exact (WebhooksClient_Create_cases L wc req).1
  · exact (WebhooksClient_List_cases L wc).1
  · intro resp err h
    unfold WebhooksClient.Delete
    rw [h]
  · exact (AdaptersClient_List_cases L ac).1
  · exact (AdaptersClient_Get_cases L ac id).1

/-- C8 at a sample input: on a 404 answer `Jobs.Get` and `Jobs.Delete` return
the NotFoundError of `request`; on a 200 answer `Jobs.Delete` returns no
error. -/
theorem facades_propagate_errors_witness :
    JobsClient.Get
        (cannedLib 404 "\x7b\"error\":\"gone\"\x7d" (some [("error", .string "gone")]))
        sampleClient.Jobs "j1"
      = .returned none (some (.NotFoundError "gone")) ∧
    JobsClient.Delete
        (cannedLib 404 "\x7b\"error\":\"gone\"\x7d" (some [("error", .string "gone")]))
        sampleClient.Jobs "j1"
      = .returned () (some (.NotFoundError "gone")) ∧
    JobsClient.Delete (cannedLib 200 "\x7b\x7d" (some [])) sampleClient.Jobs "j1"
      = .returned () none :=
  ⟨(facades_propagate_errors
      (cannedLib 404 "\x7b\"error\":\"gone\"\x7d" (some [("error", .string "gone")]))
      sampleClient.Jobs sampleClient.Reports sampleClient.Webhooks sampleClient.Adapters
      "\x7b\x7d" "j1" "" 2 10).2.1 none _ rfl,
   (facades_propagate_errors
      (cannedLib 404 "\x7b\"error\":\"gone\"\x7d" (some [("error", .string "gone")]))
      sampleClient.Jobs sampleClient.Reports sampleClient.Webhooks sampleClient.Adapters
      "\x7b\x7d" "j1" "" 2 10).2.2.2.2.1 none _ rfl,
   (facades_propagate_errors (cannedLib 200 "\x7b\x7d" (some []))
      sampleClient.Jobs sampleClient.Reports sampleClient.Webhooks sampleClient.Adapters
      "\x7b\x7d" "j1" "" 2 10).2.2.2.2.1 (some []) none rfl⟩

/-! ## C9: the URI of Jobs.List -/

/-- Decimal digits are unreserved. -/
theorem unreserved_digitChar : ∀ d : Nat, d < 10 → unreserved (Nat.digitChar d) = true := by
  decide

/-- The digits `Nat.toDigitsCore` writes in base ten are unreserved. -/
theorem unreserved_toDigitsCore (fuel : Nat) :
    ∀ (n : Nat) (ds : List Char), (∀ ch ∈ ds, unreserved ch = true) →
      ∀ ch ∈ Nat.toDigitsCore 10 fuel n ds, unreserved ch = true := by
  induction fuel with
  | zero =>
    intro n ds hds ch hch
    exact hds ch (by simpa [Nat.toDigitsCore] using hch)
  | succ fuel ih =>
    intro n ds hds ch hch
    have hd : ∀ x ∈ Nat.digitChar (n % 10) :: ds, unreserved x = true := by
      intro x hx
      rcases List.mem_cons.mp hx with rfl | hx
      · exact unreserved_digitChar _ (Nat.mod_lt _ (by decide))
      · exact hds x hx
    unfold Nat.toDigitsCore at hch
    simp only [] at hch
    split_ifs at hch
    · exact hd ch hch
    · exact ih _ _ hd ch hch

/-- Every character of a decimal rendering is unreserved. -/
theorem unreserved_formatInt (n : Int) : ∀ ch ∈ (formatInt n).data, unreserved ch = true := by
  intro ch hch
  cases n with
  | ofNat m =>
    exact unreserved_toDigitsCore _ _ [] (by simp) ch (by simpa [formatInt, Nat.toDigits] using hch)
  | negSucc m =>
    simp only [formatInt, List.mem_cons] at hch
    rcases hch with rfl | hch
    · decide
    · exact unreserved_toDigitsCore _ _ [] (by simp) ch (by simpa [Nat.toDigits] using hch)

/-- Function `QueryEscape` leaves a string of unreserved characters as it is. -/
theorem QueryEscape_of_unreserved (s : String) (h : ∀ ch ∈ s.data, unreserved ch = true) :
    QueryEscape s = s := by
  have key : ∀ l : List Char, (∀ ch ∈ l, unreserved ch = true) → l.flatMap escapeChar = l := by
    intro l
    induction l with
    | nil => intro _; rfl
    | cons x xs ih =>
      intro hl
      have hx : unreserved x = true := hl x (List.mem_cons_self _ _)
      have hxs := ih (fun ch hch => hl ch (List.mem_cons_of_mem _ hch))
      simp [List.flatMap_cons, escapeChar, hx, hxs]
  unfold QueryEscape
  rw [key s.data h]

/-- Function `QueryEscape` leaves a decimal rendering as it is. -/
theorem QueryEscape_formatInt (n : Int) : QueryEscape (formatInt n) = formatInt n :=
  QueryEscape_of_unreserved _ (unreserved_formatInt n)

/-- The query `Jobs.List` encodes, in both orders in which the `range` loop
can visit the two parameters. -/
theorem Encode_page_limit (p l : Int) :
    Values.Encode ([("page", formatInt p), ("limit", formatInt l)].foldl
        (fun q kv => Values.Set q kv.1 kv.2) [])
      = "limit=" ++ formatInt l ++ "&page=" ++ formatInt p ∧
    Values.Encode ([("limit", formatInt l), ("page", formatInt p)].foldl
        (fun q kv => Values.Set q kv.1 kv.2) [])
      = "limit=" ++ formatInt l ++ "&page=" ++ formatInt p := by
  have hlt : "limit" < "page" := String.lt_iff_toList_lt.mpr (by decide)
  have hnlt : ¬ "page" < "limit" := fun h => absurd (String.lt_iff_toList_lt.mp h) (by decide)
  have hl : QueryEscape "limit" = "limit" := by decide
  have hp : QueryEscape "page" = "page" := by decide
  constructor
  · apply String.ext
    simp [Values.Encode, Values.Set, sortByKey, insertByKey, hlt, hl, hp,
      QueryEscape_formatInt, String.intercalate, String.intercalate.go, String.data_append]
  · apply String.ext
    simp [Values.Encode, Values.Set, sortByKey, insertByKey, hnlt, hl, hp,
      QueryEscape_formatInt, String.intercalate, String.intercalate.go, String.data_append]

/-- After `Set`, the key holds the one value. -/
theorem lookup_Set_self (v : Values) (key value : String) :
    (Values.Set v key value).lookup key = some [value] := by
  simp [Values.Set, List.lookup]

/-- Removing the entries of one key leaves the other keys as they are. -/
theorem lookup_filter_ne (v : Values) (key other : String) (h : other ≠ key) :
    (v.filter (fun p => p.1 != key)).lookup other = v.lookup other := by
  induction v with
  | nil => rfl
  | cons e rest ih =>
    by_cases he : e.1 = key
    · have hne : (other == key) = false := by simpa using h
      obtain ⟨k, vs⟩ := e
      simp only at he
      subst he
      simp only [List.filter, bne_self_eq_false, List.lookup, hne]
      exact ih
    · have hb : (e.1 != key) = true := by simpa using he
      simp only [List.filter, hb, List.lookup]
      cases other == e.1 with
      | true => rfl
      | false => exact ih

/-- Method `Set` leaves the other keys as they are. -/
theorem lookup_Set_other (v : Values) (key value other : String) (h : other ≠ key) :
    (Values.Set v key value).lookup other = v.lookup other := by
  have hne : (other == key) = false := by simpa using h
  simp only [Values.Set, List.lookup, hne]
  exact lookup_filter_ne v key other h

/-- After `Set`, the key has one entry. -/
theorem filter_Set_self (v : Values) (key value : String) :
    (Values.Set v key value).filter (fun e => e.1 == key) = [(key, [value])] := by
  simp [Values.Set, List.filter_filter]

/-- Method `Set` of another key keeps the entries of a key. -/
theorem filter_Set_other (v : Values) (key value other : String) (h : key ≠ other) :
    (Values.Set v key value).filter (fun e => e.1 == other)
      = (v.filter (fun e => e.1 == other)).filter (fun p => p.1 != key) := by
  have hne : (key == other) = false := by simpa using h
  simp only [Values.Set, List.filter, hne, List.filter_filter]
  congr 1
  funext e
  exact Bool.and_comm _ _

/-- Two insertions with different keys can be done in either order. -/
theorem insertByKey_comm (a b : String × List String) (h : a.1 < b.1) :
    ∀ l : Values, insertByKey a (insertByKey b l) = insertByKey b (insertByKey a l) := by
  have hba : ¬ b.1 < a.1 := lt_asymm h
  intro l
  induction l with
  | nil => simp [insertByKey, h, hba]
  | cons f rest ih =>
    by_cases hbf : b.1 < f.1
    · have haf : a.1 < f.1 := lt_trans h hbf
      simp [insertByKey, h, hba, hbf, haf]
    · by_cases haf : a.1 < f.1
      · simp [insertByKey, hba, hbf, haf]
      · simp [insertByKey, hbf, haf, ih]

/-- The encoded query does not depend on the order in which `page` and `limit`
are set. -/
theorem Encode_Set_page_limit_comm (q₀ : Values) (p l : String) :
    Values.Encode (Values.Set (Values.Set q₀ "limit" l) "page" p)
      = Values.Encode (Values.Set (Values.Set q₀ "page" p) "limit" l) := by
  have hlt : "limit" < "page" := String.lt_iff_toList_lt.mpr (by decide)
  have h₁ : ("limit" != "page") = true := by decide
  have h₂ : ("page" != "limit") = true := by decide
  have hf : (q₀.filter (fun e => e.1 != "limit")).filter (fun e => e.1 != "page")
      = (q₀.filter (fun e => e.1 != "page")).filter (fun e => e.1 != "limit") := by
    simp only [List.filter_filter]
    congr 1
    funext e
    exact Bool.and_comm _ _
  have hs : sortByKey (Values.Set (Values.Set q₀ "limit" l) "page" p)
      = sortByKey (Values.Set (Values.Set q₀ "page" p) "limit" l) := by
    simp only [Values.Set, List.filter, h₁, h₂, sortByKey, hf]
    exact (insertByKey_comm ("limit", [l]) ("page", [p]) hlt _).symm
  unfold Values.Encode
  rw [hs]

/-- C9 as stated fails for a client whose base URL carries a query of its own,
which `WithBaseURL` accepts: with the base URL
`https://api.settler.io/v2?tenant=acme`, `Jobs.List(2, 10)` hands the transport
a GET for `https://api.settler.io/v2?limit=10&page=2&tenant=acme%2Fapi%2Fv1%2Fjobs`,
which is not the base URL followed by `/api/v1/jobs` and whose query has the
three keys `limit`, `page` and `tenant`. -/
theorem JobsClient_List_keeps_base_query :
    (NewClient "sk_test" [WithBaseURL "https://api.settler.io/v2?tenant=acme"]).result
      = .returned (some tenantClient) none ∧
    prepareRequest (queryLib 200 "\x7b\x7d" (some [])) tenantClient "GET" "/api/v1/jobs" none
        [("page", formatInt 2), ("limit", formatInt 10)]
      = .ready
          { method := "GET",
            url := "https://api.settler.io/v2?limit=10&page=2&tenant=acme%2Fapi%2Fv1%2Fjobs",
            body := none,
            header := [("Authorization", "Bearer sk_test"),
                       ("Content-Type", "application/json"),
                       ("User-Agent", "settler-go-sdk/1.0.0")] } ∧
    JobsClient.List (queryLib 200 "\x7b\x7d" (some [])) tenantClient.Jobs 2 10
      = .returned (some []) none ∧
    "https://api.settler.io/v2?limit=10&page=2&tenant=acme%2Fapi%2Fv1%2Fjobs"
      ≠ tenantClient.baseURL ++ "/api/v1/jobs" ++ "?limit=10&page=2" ∧
    "https://api.settler.io/v2?limit=10&page=2&tenant=acme%2Fapi%2Fv1%2Fjobs"
      ≠ tenantClient.baseURL ++ "/api/v1/jobs" ++ "?page=2&limit=10" := by
  have hlt₁ : "limit" < "page" := String.lt_iff_toList_lt.mpr (by decide)
  have hlt₂ : "page" < "tenant" := String.lt_iff_toList_lt.mpr (by decide)
  have hlt₃ : "limit" < "tenant" := String.lt_iff_toList_lt.mpr (by decide)
  have hparse : (queryLib 200 "\x7b\x7d" (some [])).urlParse
      (tenantClient.baseURL ++ "/api/v1/jobs")
      = some ("https://api.settler.io/v2", "tenant=acme/api/v1/jobs") := rfl
  have hquery : [("page", formatInt 2), ("limit", formatInt 10)].foldl
      (fun q kv => Values.Set q kv.1 kv.2) (parsePlainQuery "tenant=acme/api/v1/jobs")
      = [("limit", ["10"]), ("page", ["2"]), ("tenant", ["acme/api/v1/jobs"])] := rfl
  have hsort : sortByKey [("limit", ["10"]), ("page", ["2"]), ("tenant", ["acme/api/v1/jobs"])]
      = [("limit", ["10"]), ("page", ["2"]), ("tenant", ["acme/api/v1/jobs"])] := by
    simp [sortByKey, insertByKey, hlt₁, hlt₂, hlt₃]
  have hencode : Values.Encode
      [("limit", ["10"]), ("page", ["2"]), ("tenant", ["acme/api/v1/jobs"])]
      = "limit=10&page=2&tenant=acme%2Fapi%2Fv1%2Fjobs" := by
    unfold Values.Encode
    rw [hsort]
    rfl
  have huri : requestURI (queryLib 200 "\x7b\x7d" (some [])) tenantClient "/api/v1/jobs"
      [("page", formatInt 2), ("limit", formatInt 10)]
      = some "https://api.settler.io/v2?limit=10&page=2&tenant=acme%2Fapi%2Fv1%2Fjobs" := by
    unfold requestURI
    simp only [List.length_cons, List.length_nil, gt_iff_lt, Nat.zero_lt_succ, if_true]
    rw [hparse]
    simp only []
    have hq : (queryLib 200 "\x7b\x7d" (some [])).urlQuery
        ("https://api.settler.io/v2", "tenant=acme/api/v1/jobs")
        = parsePlainQuery "tenant=acme/api/v1/jobs" := rfl
    rw [hq, hquery, hencode]
    rfl
  refine ⟨rfl, ?_, rfl, by decide, by decide⟩
  unfold prepareRequest
  rw [huri]
  rfl

/-- C9, amended: for every page and limit and a client whose base URL followed
by `/api/v1/jobs` parses to a URL `u`, `Jobs.List` asks `http.NewRequest` for,
and on success hands the transport, a GET request without body whose URI is
the rendering of `u` with its query parameters replaced by `u`'s own with
`page` and `limit` set: these two keys occur once each, with the decimal
renderings of page and limit as their single values, the other keys of the
base URL are kept, and the encoded query is the same in whichever order the
two parameters are set. When `u` has no query of its own the encoded query is
exactly `limit=<limit>&page=<page>`. -/
theorem JobsClient_List_request (L : Lib) (jc : JobsClient) (page limit : Int) (u : L.URL)
    (hparse : L.urlParse (jc.client.baseURL ++ "/api/v1/jobs") = some u) :
    ∃ q : Values,
      q = Values.Set (Values.Set (L.urlQuery u) "page" (formatInt page))
            "limit" (formatInt limit) ∧
      JobsClient.List L jc page limit =
        (match L.newRequestError "GET"
            (L.urlString (L.urlSetRawQuery u (Values.Encode q))) none with
         | some e => .returned none (some (.Errorf ("failed to create request: " ++ e)))
         | none =>
           match L.roundTrip jc.client.timeout
               { method := "GET",
                 url := L.urlString (L.urlSetRawQuery u (Values.Encode q)),
                 body := none,
                 header := [("Authorization", "Bearer " ++ jc.client.apiKey),
                            ("Content-Type", "application/json"),
                            ("User-Agent", "settler-go-sdk/1.0.0")] } with
           | .error e => .returned none (some (.NetworkError e))
           | .ok resp => decodeResponse L resp) ∧
      q.lookup "page" = some [formatInt page] ∧
      q.lookup "limit" = some [formatInt limit] ∧
      (q.filter (fun e => e.1 == "page")).length = 1 ∧
      (q.filter (fun e => e.1 == "limit")).length = 1 ∧
      (∀ key, key ≠ "page" → key ≠ "limit" → q.lookup key = (L.urlQuery u).lookup key) ∧
      Values.Encode (Values.Set (Values.Set (L.urlQuery u) "limit" (formatInt limit))
            "page" (formatInt page)) = Values.Encode q ∧
      (L.urlQuery u = [] →
        Values.Encode q = "limit=" ++ formatInt limit ++ "&page=" ++ formatInt page) := by
  refine ⟨_, rfl, ?_, ?_, ?_, ?_, ?_, ?_, ?_, ?_⟩
  · unfold JobsClient.List request prepareRequest requestURI
    simp only [List.length_cons, List.length_nil, gt_iff_lt, Nat.zero_lt_succ, if_true,
      List.foldl]
    rw [hparse]
    simp only []
    cases L.newRequestError "GET"
        (L.urlString (L.urlSetRawQuery u (Values.Encode
          (Values.Set (Values.Set (L.urlQuery u) "page" (formatInt page))
            "limit" (formatInt limit))))) none with
    | some e => rfl
    | none => rfl
  · rw [lookup_Set_other _ _ _ _ (by decide), lookup_Set_self]
  · exact lookup_Set_self _ _ _
  · rw [filter_Set_other _ _ _ _ (by decide), filter_Set_self]
    rfl
  · rw [filter_Set_self]
    rfl
  · intro key hp hl
    rw [lookup_Set_other _ _ _ _ hl, lookup_Set_other _ _ _ _ hp]
  · exact Encode_Set_page_limit_comm _ _ _
  · intro hq
    rw [hq]
    exact (Encode_page_limit page limit).1

/-- C9 amended, at the sample input of the specification: with the default
base URL, `page=2` and `limit=10`, the URI asked for is
`https://api.settler.io/api/v1/jobs?limit=10&page=2`. -/
theorem JobsClient_List_request_witness :
    ∃ q : Values,
      Values.Encode q = "limit=10&page=2" ∧
      (cannedLib 200 "\x7b\x7d" (some [])).urlString
          ((cannedLib 200 "\x7b\x7d" (some [])).urlSetRawQuery
            ("https://api.settler.io/api/v1/jobs", "") (Values.Encode q))
        = "https://api.settler.io/api/v1/jobs?limit=10&page=2" ∧
      q.lookup "page" = some ["2"] ∧ q.lookup "limit" = some ["10"] := by
  obtain ⟨q, _, _, hp, hl, _, _, _, _, he⟩ :=
    JobsClient_List_request (cannedLib 200 "\x7b\x7d" (some [])) sampleClient.Jobs 2 10
      ("https://api.settler.io/api/v1/jobs", "") rfl
  have hq : Values.Encode q = "limit=10&page=2" := he rfl
  refine ⟨q, hq, ?_, hp, hl⟩
  rw [hq]
  rfl

/-! ## C10: a URI that does not parse -/

/-- C10, the code at the failing input: when parameters are present and
`url.Parse` rejects the base URL followed by the path, `request` panics
(`u` is nil and `u.Query()` dereferences it); so `Reports.GetUnmatched`
with a non-empty execution ID panics on a job ID that makes the URI
unparsable. -/
theorem GetUnmatched_panics_on_unparsable_uri (L : Lib) (rc : ReportsClient)
    (jobID executionID : String) (hexec : executionID ≠ "")
    (hparse : L.urlParse (rc.client.baseURL ++ ("/api/v1/reports/" ++ jobID ++ "/unmatched"))
      = none) :
    request L rc.client "GET" ("/api/v1/reports/" ++ jobID ++ "/unmatched") none
        [("execution_id", executionID)] = .panicked ∧
    ReportsClient.GetUnmatched L rc jobID executionID = .panicked := by
  have hreq : request L rc.client "GET" ("/api/v1/reports/" ++ jobID ++ "/unmatched") none
      [("execution_id", executionID)] = .panicked := by
    unfold request prepareRequest requestURI
    simp only [List.length_cons, List.length_nil, gt_iff_lt, Nat.zero_lt_succ, if_true]
    rw [hparse]
  refine ⟨hreq, ?_⟩
  unfold ReportsClient.GetUnmatched
  simp only [if_pos hexec]
  rw [hreq]

/-- C10 at the failing input: a job ID with a line feed, which `url.Parse`
rejects as a control character. -/
theorem GetUnmatched_panics_on_unparsable_uri_witness :
    ReportsClient.GetUnmatched (cannedLib 200 "\x7b\"data\":[]\x7d" (some [("data", .array [])]))
      sampleClient.Reports "j1\n" "e1" = .panicked :=
  (GetUnmatched_panics_on_unparsable_uri
    (cannedLib 200 "\x7b\"data\":[]\x7d" (some [("data", .array [])]))
    sampleClient.Reports "j1\n" "e1" (by decide) rfl).2


end Settler
